import Mathlib

/-!
Shallow embedding of the school-website server (`server.js`): the settings
store, the carousel store, the auth gate, the contact-form dispatcher and the
logout handler, together with the JSON serialization used by the settings API.
External systems (Postgres, the Vercel blob layer, the session store, SMTP)
are modelled by explicit state and outcome oracles.
-/

namespace SchoolSite

/-! ## JavaScript values

`JSValue` models the JSON-encodable JavaScript values that flow through the
settings API (`JSON.parse` output / `JSON.stringify` input).  Numbers are
modelled as integers.  `ReqValue` additionally admits `undefined`, which can
reach the settings handler as a property value in principle. -/

inductive JSValue where
  | jnull : JSValue
  | jbool : Bool → JSValue
  | jnum : Int → JSValue
  | jstr : String → JSValue
  | jarr : List JSValue → JSValue
  | jobj : List (String × JSValue) → JSValue
deriving Repr

inductive ReqValue where
  | jv : JSValue → ReqValue
  | undef : ReqValue
deriving Repr

/-- The `{` character, written via its code point. -/
def lbrace : Char := Char.ofNat 123

/-- The `}` character, written via its code point. -/
def rbrace : Char := Char.ofNat 125

/-- Lower-case hexadecimal digit for `n < 16` (as `toString(16)` produces). -/
def hexChar (n : Nat) : Char := Nat.digitChar n

/-- One character of `JSON.stringify` string escaping: `"` and `\` are
backslash-escaped, the named control characters use their short escapes, any
other control character below U+0020 becomes `\u00XX`, and everything else is
emitted literally. -/
def escChar (c : Char) : List Char :=
  if c = '"' then ['\\', '"']
  else if c = '\\' then ['\\', '\\']
  else if c = '\n' then ['\\', 'n']
  else if c = '\t' then ['\\', 't']
  else if c = '\r' then ['\\', 'r']
  else if c.toNat = 8 then ['\\', 'b']
  else if c.toNat = 12 then ['\\', 'f']
  else if c.toNat < 32 then
    ['\\', 'u', '0', '0', hexChar (c.toNat / 16), hexChar (c.toNat % 16)]
  else [c]

/-- Escape every character of a string body. -/
def escStr (s : List Char) : List Char := (s.map escChar).flatten

/-- A JSON string literal: quote, escaped body, quote. -/
def quoteStr (s : String) : List Char := '"' :: (escStr s.data ++ ['"'])

/-- Fueled digit expansion (structural recursion keeps it kernel-reducible). -/
def natToCharsAux : Nat → Nat → List Char
  | 0, _ => []
  | fuel + 1, n =>
    if n < 10 then [Nat.digitChar n]
    else natToCharsAux fuel (n / 10) ++ [Nat.digitChar (n % 10)]

/-- Decimal digit characters of a natural number, most significant first. -/
def natToChars (n : Nat) : List Char := natToCharsAux (n + 1) n

/-- Decimal rendering of an integer, as `JSON.stringify` renders it. -/
def intToChars (i : Int) : List Char :=
  if i < 0 then '-' :: natToChars i.natAbs else natToChars i.natAbs

mutual

/-- `JSON.stringify` (no spacing), producing a character list. -/
def strVal : JSValue → List Char
  | .jnull => ['n', 'u', 'l', 'l']
  | .jbool true => ['t', 'r', 'u', 'e']
  | .jbool false => ['f', 'a', 'l', 's', 'e']
  | .jnum i => intToChars i
  | .jstr s => quoteStr s
  | .jarr xs => '[' :: (strItems xs ++ [']'])
  | .jobj fs => lbrace :: (strFields fs ++ [rbrace])

/-- Comma-separated renderings of array elements. -/
def strItems : List JSValue → List Char
  | [] => []
  | [v] => strVal v
  | v :: w :: vs => strVal v ++ ',' :: strItems (w :: vs)

/-- Comma-separated renderings of object fields (`"key":value`). -/
def strFields : List (String × JSValue) → List Char
  | [] => []
  | [(k, v)] => quoteStr k ++ ':' :: strVal v
  | (k, v) :: f :: fs => quoteStr k ++ ':' :: strVal v ++ ',' :: strFields (f :: fs)

end

/-- `JSON.stringify` as a string-valued function. -/
def jsonStringify (v : JSValue) : String := String.mk (strVal v)

/-! ## JSON parsing (`JSON.parse`)

A fueled recursive-descent parser over character lists.  `jsonParse` succeeds
exactly when the whole input is one JSON value; the settings reader treats a
`none` result as the `JSON.parse` exception path. -/

/-- Longest leading run of decimal digit characters. -/
def takeDigits : List Char → List Char × List Char
  | [] => ([], [])
  | c :: cs =>
    if c.isDigit then
      let p := takeDigits cs
      (c :: p.1, p.2)
    else ([], c :: cs)

/-- Numeric value of a list of decimal digit characters. -/
def digitsVal (ds : List Char) : Nat :=
  ds.foldl (fun acc c => 10 * acc + (c.toNat - 48)) 0

/-- Parse an optionally signed decimal integer literal. -/
def parseNum : List Char → Option (Int × List Char)
  | [] => none
  | c :: cs =>
    if c = '-' then
      let p := takeDigits cs
      if p.1.isEmpty then none else some (-(digitsVal p.1 : Int), p.2)
    else
      let p := takeDigits (c :: cs)
      if p.1.isEmpty then none else some ((digitsVal p.1 : Int), p.2)

/-- Value of one hexadecimal digit character. -/
def hexVal (c : Char) : Nat :=
  if c.isDigit then c.toNat - 48
  else if 97 ≤ c.toNat && c.toNat ≤ 102 then c.toNat - 87
  else if 65 ≤ c.toNat && c.toNat ≤ 70 then c.toNat - 55
  else 0

/-- Single-character JSON escapes (the inverse of the short forms emitted by
`escChar`, plus the `\/` form `JSON.parse` accepts). -/
def escCode (e : Char) : Option Char :=
  if e = '"' then some '"'
  else if e = '\\' then some '\\'
  else if e = '/' then some '/'
  else if e = 'n' then some '\n'
  else if e = 't' then some '\t'
  else if e = 'r' then some '\r'
  else if e = 'b' then some (Char.ofNat 8)
  else if e = 'f' then some (Char.ofNat 12)
  else none

/-- Parse a string body up to and including the closing quote, returning the
unescaped characters and the remaining input. -/
def parseStrBody : List Char → Option (List Char × List Char)
  | [] => none
  | c :: cs =>
    if c = '"' then some ([], cs)
    else if c = '\\' then
      match cs with
      | [] => none
      | e :: cs2 =>
        if e = 'u' then
          match cs2 with
          | h1 :: h2 :: h3 :: h4 :: cs3 =>
            match parseStrBody cs3 with
            | none => none
            | some (body, rest) =>
              some (Char.ofNat (((hexVal h1 * 16 + hexVal h2) * 16 + hexVal h3) * 16
                + hexVal h4) :: body, rest)
          | _ => none
        else
          match escCode e with
          | none => none
          | some d =>
            match parseStrBody cs2 with
            | none => none
            | some (body, rest) => some (d :: body, rest)
    else
      match parseStrBody cs with
      | none => none
      | some (body, rest) => some (c :: body, rest)

/-- Consume an expected literal run of characters. -/
def expectChars : List Char → List Char → Option (List Char)
  | [], input => some input
  | _ :: _, [] => none
  | e :: es, c :: cs => if c = e then expectChars es cs else none

theorem expectChars_append (es r : List Char) : expectChars es (es ++ r) = some r := by
  induction es with
  | nil => rfl
  | cons e es ih => simp [expectChars, ih]

mutual

/-- Fueled parser for one JSON value. -/
def parseVal : Nat → List Char → Option (JSValue × List Char)
  | 0, _ => none
  | fuel + 1, input =>
    match input with
    | [] => none
    | c :: rest =>
      if c = 'n' then (expectChars ['u', 'l', 'l'] rest).map fun r => (JSValue.jnull, r)
      else if c = 't' then
        (expectChars ['r', 'u', 'e'] rest).map fun r => (JSValue.jbool true, r)
      else if c = 'f' then
        (expectChars ['a', 'l', 's', 'e'] rest).map fun r => (JSValue.jbool false, r)
      else if c = '"' then
        (parseStrBody rest).map fun p => (JSValue.jstr (String.mk p.1), p.2)
      else if c = '[' then parseArrTail fuel rest
      else if c = lbrace then parseObjTail fuel rest
      else (parseNum (c :: rest)).map fun p => (JSValue.jnum p.1, p.2)

/-- After `[`: either an immediate `]` or an element list. -/
def parseArrTail : Nat → List Char → Option (JSValue × List Char)
  | 0, _ => none
  | fuel + 1, rest =>
    match rest with
    | [] => none
    | d :: r2 =>
      if d = ']' then some (JSValue.jarr [], r2)
      else (parseItems fuel (d :: r2)).map fun p => (JSValue.jarr p.1, p.2)

/-- After the opening brace: either an immediate closing brace or fields. -/
def parseObjTail : Nat → List Char → Option (JSValue × List Char)
  | 0, _ => none
  | fuel + 1, rest =>
    match rest with
    | [] => none
    | d :: r2 =>
      if d = rbrace then some (JSValue.jobj [], r2)
      else (parseFields fuel (d :: r2)).map fun p => (JSValue.jobj p.1, p.2)

/-- One-or-more comma-separated array elements, consuming the closing `]`. -/
def parseItems : Nat → List Char → Option (List JSValue × List Char)
  | 0, _ => none
  | fuel + 1, input => (parseVal fuel input).bind fun p => itemSep fuel p.1 p.2

/-- The separator after one array element. -/
def itemSep : Nat → JSValue → List Char → Option (List JSValue × List Char)
  | 0, _, _ => none
  | fuel + 1, v, r =>
    match r with
    | [] => none
    | d :: r2 =>
      if d = ',' then (parseItems fuel r2).map fun p => (v :: p.1, p.2)
      else if d = ']' then some ([v], r2)
      else none

/-- One-or-more comma-separated object fields, consuming the closing brace. -/
def parseFields : Nat → List Char → Option (List (String × JSValue) × List Char)
  | 0, _ => none
  | fuel + 1, input =>
    match input with
    | [] => none
    | c :: rest =>
      if c = '"' then (parseStrBody rest).bind fun p => fieldColon fuel p.1 p.2
      else none

/-- The colon and value after one parsed field key. -/
def fieldColon : Nat → List Char → List Char → Option (List (String × JSValue) × List Char)
  | 0, _, _ => none
  | fuel + 1, key, r =>
    match r with
    | [] => none
    | d :: r2 =>
      if d = ':' then (parseVal fuel r2).bind fun p => fieldSep fuel key p.1 p.2
      else none

/-- The separator after one object field. -/
def fieldSep : Nat → List Char → JSValue → List Char → Option (List (String × JSValue) × List Char)
  | 0, _, _, _ => none
  | fuel + 1, key, v, r =>
    match r with
    | [] => none
    | e :: r4 =>
      if e = ',' then
        (parseFields fuel r4).map fun p => ((String.mk key, v) :: p.1, p.2)
      else if e = rbrace then some ([(String.mk key, v)], r4)
      else none

end

/-- Fuel sufficient to parse any rendered value of this length. -/
def jsonFuel (s : String) : Nat := 3 * s.length + 3

/-- `JSON.parse`: succeeds only when the whole string is one JSON value. -/
def jsonParse (s : String) : Option JSValue :=
  match parseVal (jsonFuel s) s.data with
  | some (v, []) => some v
  | _ => none

/-! ## Round-trip lemmas: numbers and strings -/

/-- The scanner state after a value must not begin with a digit. -/
def headNotDigit : List Char → Bool
  | [] => true
  | c :: _ => !c.isDigit

theorem headNotDigit_cons (c : Char) (r : List Char) (h : c.isDigit = false) :
    headNotDigit (c :: r) = true := by
  simp [headNotDigit, h]

theorem digitChar_isDigit (m : Nat) (h : m < 10) : (Nat.digitChar m).isDigit = true := by
  interval_cases m <;> decide

theorem digitChar_toNat (m : Nat) (h : m < 10) : (Nat.digitChar m).toNat = 48 + m := by
  interval_cases m <;> decide

theorem natToCharsAux_ne_nil (fuel : Nat) :
    ∀ n, n < fuel → natToCharsAux fuel n ≠ [] := by
  induction fuel with
  | zero => intro n h; omega
  | succ fuel _ih =>
    intro n _h
    rw [natToCharsAux]
    split <;> simp

theorem natToChars_ne_nil (n : Nat) : natToChars n ≠ [] :=
  natToCharsAux_ne_nil (n + 1) n (by omega)

theorem natToCharsAux_digits (fuel : Nat) :
    ∀ n, n < fuel → ∀ c ∈ natToCharsAux fuel n, c.isDigit = true := by
  induction fuel with
  | zero => intro n h; omega
  | succ fuel ih =>
    intro n hn
    rw [natToCharsAux]
    split
    · rename_i h
      intro c hc
      simp only [List.mem_singleton] at hc
      exact hc ▸ digitChar_isDigit n h
    · rename_i h
      intro c hc
      have hdiv : n / 10 < fuel := by
        have := Nat.div_lt_self (show 0 < n by omega) (show 1 < 10 by omega)
        omega
      rcases List.mem_append.mp hc with hc | hc
      · exact ih (n / 10) hdiv c hc
      · simp only [List.mem_singleton] at hc
        exact hc ▸ digitChar_isDigit (n % 10) (Nat.mod_lt n (by omega))

theorem natToChars_digits (n : Nat) : ∀ c ∈ natToChars n, c.isDigit = true :=
  natToCharsAux_digits (n + 1) n (by omega)

theorem takeDigits_stops (rest : List Char) (h : headNotDigit rest = true) :
    takeDigits rest = ([], rest) := by
  cases rest with
  | nil => rfl
  | cons c cs =>
    simp only [headNotDigit, Bool.not_eq_true'] at h
    simp [takeDigits, h]

theorem takeDigits_append (ds rest : List Char) (hds : ∀ c ∈ ds, c.isDigit = true)
    (h : headNotDigit rest = true) : takeDigits (ds ++ rest) = (ds, rest) := by
  induction ds with
  | nil => simpa using takeDigits_stops rest h
  | cons c cs ih =>
    have hc := hds c (by simp)
    simp [takeDigits, hc, ih (fun d hd => hds d (by simp [hd]))]

theorem digitsVal_append (ds : List Char) (c : Char) :
    digitsVal (ds ++ [c]) = 10 * digitsVal ds + (c.toNat - 48) := by
  simp [digitsVal, List.foldl_append]

theorem digitsVal_natToCharsAux (fuel : Nat) :
    ∀ n, n < fuel → digitsVal (natToCharsAux fuel n) = n := by
  induction fuel with
  | zero => intro n h; omega
  | succ fuel ih =>
    intro n hn
    rw [natToCharsAux]
    split
    · rename_i h
      simp [digitsVal, digitChar_toNat n h]
    · rename_i h
      have hdiv : n / 10 < fuel := by
        have := Nat.div_lt_self (show 0 < n by omega) (show 1 < 10 by omega)
        omega
      rw [digitsVal_append, ih (n / 10) hdiv,
        digitChar_toNat (n % 10) (Nat.mod_lt n (by omega))]
      omega

theorem digitsVal_natToChars (n : Nat) : digitsVal (natToChars n) = n :=
  digitsVal_natToCharsAux (n + 1) n (by omega)

theorem parseNum_intToChars (i : Int) (rest : List Char) (h : headNotDigit rest = true) :
    parseNum (intToChars i ++ rest) = some (i, rest) := by
  obtain ⟨c, cs, hcons⟩ : ∃ c cs, natToChars i.natAbs = c :: cs := by
    cases hx : natToChars i.natAbs with
    | nil => exact absurd hx (natToChars_ne_nil _)
    | cons c cs => exact ⟨c, cs, rfl⟩
  have hdigs : ∀ d ∈ c :: cs, d.isDigit = true := by
    rw [← hcons]; exact natToChars_digits i.natAbs
  have htd : takeDigits (c :: (cs ++ rest)) = (c :: cs, rest) := by
    have := takeDigits_append (c :: cs) rest hdigs h
    simpa using this
  have hdv : digitsVal (c :: cs) = i.natAbs := by
    rw [← hcons]; exact digitsVal_natToChars _
  by_cases hi : i < 0
  · have hshape : intToChars i ++ rest = '-' :: (c :: (cs ++ rest)) := by
      simp [intToChars, hi, hcons]
    rw [hshape, parseNum.eq_def]
    simp [htd, hdv, abs_of_neg hi]
  · have hcm : c ≠ '-' := by
      intro hc
      have := hdigs c (by simp)
      rw [hc] at this
      exact absurd this (by decide)
    have hshape : intToChars i ++ rest = c :: (cs ++ rest) := by
      simp [intToChars, hi, hcons]
    rw [hshape, parseNum.eq_def]
    simp [hcm, htd, hdv]
    omega

theorem hexVal_hexChar (m : Nat) (h : m < 16) : hexVal (hexChar m) = m := by
  interval_cases m <;> decide

theorem parseStrBody_escape (s rest : List Char) :
    parseStrBody (escStr s ++ '"' :: rest) = some (s, rest) := by
  induction s with
  | nil =>
    simp only [escStr, List.map_nil, List.flatten_nil, List.nil_append]
    rw [parseStrBody.eq_def]
    simp
  | cons c cs ih =>
    have hstep : escStr (c :: cs) = escChar c ++ escStr cs := by simp [escStr]
    rw [hstep, List.append_assoc]
    unfold escChar
    split_ifs with h1 h2 h3 h4 h5 h6 h7 h8
    · subst h1
      simp only [List.cons_append, List.nil_append]
      rw [parseStrBody.eq_def]
      simp [escCode, ih]
    · subst h2
      simp only [List.cons_append, List.nil_append]
      rw [parseStrBody.eq_def]
      simp [escCode, ih]
    · subst h3
      simp only [List.cons_append, List.nil_append]
      rw [parseStrBody.eq_def]
      simp [escCode, ih]
    · subst h4
      simp only [List.cons_append, List.nil_append]
      rw [parseStrBody.eq_def]
      simp [escCode, ih]
    · subst h5
      simp only [List.cons_append, List.nil_append]
      rw [parseStrBody.eq_def]
      simp [escCode, ih]
    · -- c is the backspace character, escaped as a short form
      have hc : c = Char.ofNat 8 := by
        have := Char.ofNat_toNat c
        rw [h6] at this
        exact this.symm
      subst hc
      simp only [List.cons_append, List.nil_append]
      rw [parseStrBody.eq_def]
      simp [escCode, ih]
    · -- c is the form-feed character, escaped as a short form
      have hc : c = Char.ofNat 12 := by
        have := Char.ofNat_toNat c
        rw [h7] at this
        exact this.symm
      subst hc
      simp only [List.cons_append, List.nil_append]
      rw [parseStrBody.eq_def]
      simp [escCode, ih]
    · -- other control characters, escaped as a unicode sequence
      have hd1 : hexVal (hexChar (c.toNat / 16)) = c.toNat / 16 :=
        hexVal_hexChar _ (by omega)
      have hd2 : hexVal (hexChar (c.toNat % 16)) = c.toNat % 16 :=
        hexVal_hexChar _ (by omega)
      have hvv : hexVal '0' = 0 := by decide
      simp only [List.cons_append, List.nil_append]
      rw [parseStrBody.eq_def]
      simp only [ih, hd1, hd2, hvv]
      simp only [Nat.zero_mul, Nat.zero_add, Nat.mul_zero, Nat.add_zero]
      have h16 : c.toNat / 16 * 16 + c.toNat % 16 = c.toNat := by omega
      simp [h16, Char.ofNat_toNat]
    · -- ordinary character, emitted literally
      simp only [List.cons_append, List.nil_append]
      rw [parseStrBody.eq_def]
      simp [h1, h2, ih]

/-! ## Round-trip: values -/

mutual

/-- Fuel charge of one value. -/
def fsize : JSValue → Nat
  | .jnull => 1
  | .jbool _ => 1
  | .jnum _ => 1
  | .jstr _ => 1
  | .jarr xs => 2 + asize xs
  | .jobj fs => 2 + osize fs

/-- Fuel charge of an array-element list. -/
def asize : List JSValue → Nat
  | [] => 1
  | v :: vs => 2 + fsize v + asize vs

/-- Fuel charge of an object-field list. -/
def osize : List (String × JSValue) → Nat
  | [] => 1
  | (_, v) :: fs => 3 + fsize v + osize fs

end

theorem one_le_fsize (v : JSValue) : 1 ≤ fsize v := by
  cases v <;> simp only [fsize] <;> omega

theorem digit_ne (c d : Char) (h : c.isDigit = true) (hd : d.isDigit = false) :
    c ≠ d := by
  intro he
  subst he
  rw [h] at hd
  cases hd

theorem intToChars_cons (i : Int) :
    ∃ c cs, intToChars i = c :: cs ∧ (c = '-' ∨ c.isDigit = true) := by
  obtain ⟨c, cs, hcons⟩ : ∃ c cs, natToChars i.natAbs = c :: cs := by
    cases hx : natToChars i.natAbs with
    | nil => exact absurd hx (natToChars_ne_nil _)
    | cons c cs => exact ⟨c, cs, rfl⟩
  have hdig : c.isDigit = true := natToChars_digits i.natAbs c (by rw [hcons]; simp)
  by_cases hi : i < 0
  · exact ⟨'-', natToChars i.natAbs, by simp [intToChars, hi], Or.inl rfl⟩
  · exact ⟨c, cs, by simp [intToChars, hi, hcons], Or.inr hdig⟩

/-- Every rendered value starts with a character that closes neither an array
nor an object nor an element list. -/
theorem strVal_shape (v : JSValue) :
    ∃ c cs, strVal v = c :: cs ∧ c ≠ ']' ∧ c ≠ ',' ∧ c ≠ rbrace := by
  cases v with
  | jnull => exact ⟨'n', ['u', 'l', 'l'], rfl, by decide, by decide, by decide⟩
  | jbool b =>
    cases b
    · exact ⟨'f', ['a', 'l', 's', 'e'], rfl, by decide, by decide, by decide⟩
    · exact ⟨'t', ['r', 'u', 'e'], rfl, by decide, by decide, by decide⟩
  | jnum i =>
    obtain ⟨c, cs, hcons, hc⟩ := intToChars_cons i
    refine ⟨c, cs, by simp [strVal, hcons], ?_, ?_, ?_⟩ <;>
      rcases hc with hc | hc <;>
        first
          | (subst hc; decide)
          | exact digit_ne c _ hc (by decide)
  | jstr s => exact ⟨'"', escStr s.data ++ ['"'], rfl, by decide, by decide, by decide⟩
  | jarr xs => exact ⟨'[', strItems xs ++ [']'], rfl, by decide, by decide, by decide⟩
  | jobj fs => exact ⟨lbrace, strFields fs ++ [rbrace], rfl, by decide, by decide, by decide⟩

theorem strItems_cons_decomp (v : JSValue) (vs : List JSValue) :
    ∃ t, strItems (v :: vs) = strVal v ++ t := by
  cases vs with
  | nil => exact ⟨[], by simp [strItems]⟩
  | cons w ws => exact ⟨',' :: strItems (w :: ws), by simp [strItems]⟩

set_option maxHeartbeats 2000000

theorem lbrace_facts : lbrace ≠ 'n' ∧ lbrace ≠ 't' ∧ lbrace ≠ 'f' ∧ lbrace ≠ '"'
    ∧ lbrace ≠ '[' ∧ lbrace ≠ rbrace ∧ rbrace ≠ ',' ∧ rbrace.isDigit = false := by
  decide

mutual

theorem parseVal_strVal (v : JSValue) : ∀ (fuel : Nat) (rest : List Char),
    fsize v ≤ fuel → headNotDigit rest = true →
    parseVal fuel (strVal v ++ rest) = some (v, rest) := by
  intro fuel rest hfs hrest
  cases fuel with
  | zero => exact absurd hfs (by have := one_le_fsize v; omega)
  | succ f =>
    cases v with
    | jnull =>
      rw [show strVal .jnull = ['n', 'u', 'l', 'l'] from rfl, parseVal.eq_def]
      simp [expectChars]
    | jbool b =>
      cases b
      · rw [show strVal (.jbool false) = ['f', 'a', 'l', 's', 'e'] from rfl,
          parseVal.eq_def]
        simp [expectChars]
      · rw [show strVal (.jbool true) = ['t', 'r', 'u', 'e'] from rfl, parseVal.eq_def]
        simp [expectChars]
    | jnum i =>
      obtain ⟨c, cs, hcons, hc⟩ := intToChars_cons i
      have hdigs : ∀ d : Char, d.isDigit = false → d ≠ '-' → c ≠ d := by
        rcases hc with hc | hc
        · intro d _ hdm he
          exact hdm (by rw [← he, hc])
        · exact fun d hd _ => digit_ne c d hc hd
      have hn := hdigs 'n' (by decide) (by decide)
      have ht := hdigs 't' (by decide) (by decide)
      have hf := hdigs 'f' (by decide) (by decide)
      have hq := hdigs '"' (by decide) (by decide)
      have hlb := hdigs '[' (by decide) (by decide)
      have hob := hdigs lbrace (by decide) (by decide)
      have hp : parseNum (c :: (cs ++ rest)) = some (i, rest) := by
        rw [show c :: (cs ++ rest) = intToChars i ++ rest by rw [hcons]; simp]
        exact parseNum_intToChars i rest hrest
      rw [show strVal (.jnum i) = intToChars i from rfl, hcons, List.cons_append,
        parseVal.eq_def]
      simp [hn, ht, hf, hq, hlb, hob, hp]
    | jstr s =>
      obtain ⟨data⟩ := s
      have hps := parseStrBody_escape data rest
      rw [show strVal (.jstr ⟨data⟩) = '"' :: (escStr data ++ ['"']) from rfl,
        List.cons_append, parseVal.eq_def]
      simp only [List.append_assoc, List.singleton_append]
      simp [hps]
    | jarr xs =>
      have hf2 : 1 ≤ f := by
        simp only [fsize] at hfs
        omega
      obtain ⟨f1, rfl⟩ : ∃ f1, f = f1 + 1 := ⟨f - 1, by omega⟩
      · rw [show strVal (.jarr xs) = '[' :: (strItems xs ++ [']']) from rfl,
          List.cons_append, parseVal.eq_def]
        simp only [List.append_assoc, List.singleton_append]
        cases xs with
        | nil =>
          rw [show strItems [] ++ ']' :: rest = ']' :: rest from rfl]
          simp [parseArrTail]
        | cons x xs =>
          obtain ⟨t, hti⟩ := strItems_cons_decomp x xs
          obtain ⟨c, cs, hsx, hc1, _, _⟩ := strVal_shape x
          have hlist : strItems (x :: xs) ++ ']' :: rest
              = c :: (cs ++ (t ++ ']' :: rest)) := by
            rw [hti, hsx]
            simp
          have hitems := parseItems_strItems (x :: xs) f1 rest (by simp)
            (by simp only [fsize] at hfs; omega)
          rw [hlist] at hitems
          rw [hlist, parseArrTail.eq_def]
          simp [hc1, hitems]
    | jobj fs =>
      obtain ⟨hn, ht, hf, hq, hlb, hor, hrc, _⟩ := lbrace_facts
      have hf2 : 1 ≤ f := by
        simp only [fsize] at hfs
        omega
      obtain ⟨f1, rfl⟩ : ∃ f1, f = f1 + 1 := ⟨f - 1, by omega⟩
      · rw [show strVal (.jobj fs) = lbrace :: (strFields fs ++ [rbrace]) from rfl,
          List.cons_append, parseVal.eq_def]
        simp only [List.append_assoc, List.singleton_append]
        cases fs with
        | nil =>
          rw [show strFields [] ++ rbrace :: rest = rbrace :: rest from rfl]
          simp [parseObjTail, hn, ht, hf, hq, hlb]
        | cons f0 fs =>
          obtain ⟨k, v0⟩ := f0
          have hflds := parseFields_strFields ((k, v0) :: fs) f1 rest (by simp)
            (by simp only [fsize] at hfs; omega)
          have hshape : strFields ((k, v0) :: fs) ++ rbrace :: rest
              = '"' :: ((strFields ((k, v0) :: fs)).tail ++ rbrace :: rest) := by
            cases fs <;> simp [strFields, quoteStr]
          rw [hshape] at hflds
          rw [hshape, parseObjTail.eq_def]
          simp [hn, ht, hf, hq, hlb, show ('"' : Char) ≠ rbrace by decide, hflds]

theorem parseItems_strItems (xs : List JSValue) : ∀ (fuel : Nat) (rest : List Char),
    xs ≠ [] → asize xs ≤ fuel →
    parseItems fuel (strItems xs ++ ']' :: rest) = some (xs, rest) := by
  intro fuel rest hne hsz
  match xs, hne with
  | v :: vs, _ =>
    have hf2 : 2 ≤ fuel := by
      simp only [asize] at hsz
      have := one_le_fsize v
      omega
    obtain ⟨f1, rfl⟩ : ∃ f1, fuel = f1 + 2 := ⟨fuel - 2, by omega⟩
    · cases vs with
      | nil =>
        have hv := parseVal_strVal v (f1 + 1) (']' :: rest)
          (by simp only [asize] at hsz; omega) (headNotDigit_cons _ _ (by decide))
        rw [show strItems [v] = strVal v from rfl, parseItems.eq_def]
        simp only [hv, Option.some_bind]
        rw [itemSep.eq_def]
        simp
      | cons w ws =>
        have hv := parseVal_strVal v (f1 + 1) (',' :: (strItems (w :: ws) ++ ']' :: rest))
          (by simp only [asize] at hsz ⊢; omega) (headNotDigit_cons _ _ (by decide))
        have hrec := parseItems_strItems (w :: ws) f1 rest (by simp)
          (by simp only [asize] at hsz ⊢; omega)
        rw [show strItems (v :: w :: ws) = strVal v ++ ',' :: strItems (w :: ws) from rfl,
          parseItems.eq_def]
        simp only [List.append_assoc, List.cons_append, hv, Option.some_bind]
        rw [itemSep.eq_def]
        simp [hrec]

theorem parseFields_strFields (fs : List (String × JSValue)) :
    ∀ (fuel : Nat) (rest : List Char), fs ≠ [] → osize fs ≤ fuel →
    parseFields fuel (strFields fs ++ rbrace :: rest) = some (fs, rest) := by
  intro fuel rest hne hsz
  match fs, hne with
  | (k, v) :: fs, _ =>
    obtain ⟨kdata⟩ := k
    have hf2 : 3 ≤ fuel := by
      simp only [osize] at hsz
      have := one_le_fsize v
      omega
    obtain ⟨f1, rfl⟩ : ∃ f1, fuel = f1 + 3 := ⟨fuel - 3, by omega⟩
    · cases fs with
      | nil =>
        have hv := parseVal_strVal v (f1 + 1) (rbrace :: rest)
          (by simp only [osize] at hsz; omega)
          (headNotDigit_cons _ _ lbrace_facts.2.2.2.2.2.2.2)
        have hps := parseStrBody_escape kdata (':' :: (strVal v ++ rbrace :: rest))
        rw [show strFields [(⟨kdata⟩, v)] = quoteStr ⟨kdata⟩ ++ ':' :: strVal v from rfl,
          show quoteStr ⟨kdata⟩ = '"' :: (escStr kdata ++ ['"']) from rfl,
          parseFields.eq_def]
        simp only [List.append_assoc, List.cons_append, List.singleton_append]
        simp [hps]
        rw [fieldColon.eq_def]
        simp [hv]
        rw [fieldSep.eq_def]
        simp [lbrace_facts.2.2.2.2.2.2.1]
      | cons f1v fs =>
        have hv := parseVal_strVal v (f1 + 1)
          (',' :: (strFields (f1v :: fs) ++ rbrace :: rest))
          (by simp only [osize] at hsz ⊢; omega) (headNotDigit_cons _ _ (by decide))
        have hrec := parseFields_strFields (f1v :: fs) f1 rest (by simp)
          (by simp only [osize] at hsz ⊢; omega)
        have hps := parseStrBody_escape kdata
          (':' :: (strVal v ++ ',' :: (strFields (f1v :: fs) ++ rbrace :: rest)))
        rw [show strFields ((⟨kdata⟩, v) :: f1v :: fs)
            = quoteStr ⟨kdata⟩ ++ ':' :: strVal v ++ ',' :: strFields (f1v :: fs) from rfl,
          show quoteStr ⟨kdata⟩ = '"' :: (escStr kdata ++ ['"']) from rfl,
          parseFields.eq_def]
        simp only [List.append_assoc, List.cons_append, List.singleton_append]
        simp [hps]
        rw [fieldColon.eq_def]
        simp [hv]
        rw [fieldSep.eq_def]
        simp [hrec]

end

mutual

theorem fsize_le_strVal (v : JSValue) : fsize v ≤ 3 * (strVal v).length := by
  cases v with
  | jnull => simp [fsize, strVal]
  | jbool b => cases b <;> simp [fsize, strVal]
  | jnum i =>
    have h1 : 1 ≤ (intToChars i).length := by
      obtain ⟨c, cs, hcons, _⟩ := intToChars_cons i
      simp [hcons]
    simp only [fsize, strVal]
    omega
  | jstr s =>
    simp only [fsize, strVal, quoteStr, List.length_cons, List.length_append,
      List.length_nil]
    omega
  | jarr xs =>
    have := asize_le_strItems xs
    simp only [fsize, strVal, List.length_cons, List.length_append, List.length_nil]
    omega
  | jobj fs =>
    have := osize_le_strFields fs
    simp only [fsize, strVal, List.length_cons, List.length_append, List.length_nil]
    omega

theorem asize_le_strItems (xs : List JSValue) :
    asize xs ≤ 3 * (strItems xs).length + 3 := by
  cases xs with
  | nil => simp [asize, strItems]
  | cons v vs =>
    cases vs with
    | nil =>
      have := fsize_le_strVal v
      simp only [asize, strItems]
      omega
    | cons w ws =>
      have h1 := fsize_le_strVal v
      have h2 := asize_le_strItems (w :: ws)
      simp only [asize, strItems, List.length_append, List.length_cons]
      simp only [asize] at h2
      omega

theorem osize_le_strFields (fs : List (String × JSValue)) :
    osize fs ≤ 3 * (strFields fs).length + 3 := by
  cases fs with
  | nil => simp [osize, strFields]
  | cons f0 fs =>
    obtain ⟨k, v⟩ := f0
    cases fs with
    | nil =>
      have := fsize_le_strVal v
      simp only [osize, strFields, List.length_append, List.length_cons]
      omega
    | cons f1 fs =>
      have h1 := fsize_le_strVal v
      have h2 := osize_le_strFields (f1 :: fs)
      simp only [osize, strFields, List.length_append, List.length_cons]
      simp only [osize] at h2
      omega

end

/-- `JSON.parse ∘ JSON.stringify` is the identity on JSON-encodable values. -/
theorem jsonParse_jsonStringify (v : JSValue) : jsonParse (jsonStringify v) = some v := by
  have hfuel : fsize v ≤ jsonFuel (jsonStringify v) := by
    have h1 := fsize_le_strVal v
    have h2 : (jsonStringify v).length = (strVal v).length := rfl
    simp only [jsonFuel, h2]
    omega
  have h := parseVal_strVal v (jsonFuel (jsonStringify v)) [] hfuel rfl
  rw [List.append_nil] at h
  unfold jsonParse
  rw [show (jsonStringify v).data = strVal v from rfl, h]

/-! ## Server state and responses -/

/-- A single quote character, used inside response strings. -/
def sq : String := String.mk [Char.ofNat 39]

/-- The `settings` table: `setting_name` (unique) to `setting_value`. -/
abbrev SettingsTable := List (String × String)

/-- One row of the `carousel_images` table. -/
structure CarouselRow where
  id : Int
  image_url : String
  link_url : Option String
  alt_text : String
  file_name : String
  display_order : Int
deriving Repr, DecidableEq

/-- The data stored in an authenticated session. -/
structure SessionData where
  authenticated : Bool
  username : String
deriving Repr, DecidableEq

/-- The persistent state the HTTP layer can observe and mutate: the two
tables, the blob store (by public URL), the next `SERIAL` id, and the
requester's session. -/
structure ServerState where
  settings : SettingsTable
  carousel : List CarouselRow
  nextId : Int
  blobs : List String
  session : Option SessionData
deriving Repr, DecidableEq

/-- A JSON API response: HTTP status plus the observable body fields. -/
structure ApiResponse where
  status : Nat
  error : Option String
  message : Option String
  redirectTo : Option String
deriving Repr, DecidableEq

def jsonError (st : Nat) (e : String) : ApiResponse := ⟨st, some e, none, none⟩

def jsonMessage (st : Nat) (m : String) : ApiResponse := ⟨st, none, some m, none⟩

/-! ## Authentication middleware (`checkAuth`) -/

/-- `req.session && req.session.authenticated`. -/
def isAuthed : Option SessionData → Bool
  | some s => s.authenticated
  | none => false

/-- `req.originalUrl.startsWith('/api/')`. -/
def isApiPath (path : String) : Bool := "/api/".data.isPrefixOf path.data

inductive AuthResult where
  | proceed : AuthResult
  | denyApi : ApiResponse → AuthResult
  | denyPage : String → AuthResult
deriving Repr

/-- The 401 body `checkAuth` sends on API paths. -/
def unauthorizedResp : ApiResponse :=
  ⟨401, some "Unauthorized. Please log in.", none, some "/login.html?unauthorized=true"⟩

/-- The `checkAuth` middleware: authenticated sessions proceed; API paths get
a 401 JSON with a redirect hint; page paths get a redirect. -/
def checkAuth (path : String) (sess : Option SessionData) : AuthResult :=
  if isAuthed sess then .proceed
  else if isApiPath path then .denyApi unauthorizedResp
  else .denyPage "/login.html?unauthorized=true"

/-! ## Settings store -/

/-- The fixed JSON-key set of `GET /api/settings`. -/
def jsonKeys : List String :=
  ["socialLinks", "facilityCards", "heroGradient", "aboutGradient",
   "admissionsGradient", "academicsGradient", "facilitiesGradient", "contactGradient"]

/-- Type-appropriate empty default for a JSON key. -/
def defaultFor (name : String) : JSValue :=
  if name = "facilityCards" then .jarr [] else .jobj []

/-- How `GET /api/settings` decodes one stored row: JSON keys are parsed with
fallback to the empty default on empty or malformed values; other keys pass
through as strings. -/
def decodeSetting (name value : String) : JSValue :=
  if name ∈ jsonKeys then
    if value = "" then defaultFor name
    else
      match jsonParse value with
      | some v => v
      | none => defaultFor name
  else .jstr value

/-- The decoded pairs of `GET /api/settings`, one per stored row. -/
def getAllPairs (tbl : SettingsTable) : List (String × JSValue) :=
  tbl.map fun p => (p.1, decodeSetting p.1 p.2)

/-- Property lookup on the response object the `forEach` loop builds: a later
assignment to the same name overwrites an earlier one. -/
def objLookup (pairs : List (String × JSValue)) (name : String) : Option JSValue :=
  pairs.foldl (fun acc p => if p.1 = name then some p.2 else acc) none

/-- `GET /api/settings`, observed at one key. -/
def getSetting (tbl : SettingsTable) (name : String) : Option JSValue :=
  objLookup (getAllPairs tbl) name

/-- Raw (string-valued) lookup, as the contact handler reads settings. -/
def rawSetting (tbl : SettingsTable) (name : String) : Option String :=
  tbl.foldl (fun acc p => if p.1 = name then some p.2 else acc) none

/-- `typeof value === 'object' && value !== null ? JSON.stringify(value)
: String(value || '')`. -/
def valueToStore : ReqValue → String
  | .jv (.jobj fs) => jsonStringify (.jobj fs)
  | .jv (.jarr xs) => jsonStringify (.jarr xs)
  | .jv .jnull => ""
  | .undef => ""
  | .jv (.jstr s) => s
  | .jv (.jnum i) => if i = 0 then "" else String.mk (intToChars i)
  | .jv (.jbool b) => if b then "true" else ""

/-- `INSERT ... ON CONFLICT (setting_name) DO UPDATE SET setting_value`. -/
def upsert (tbl : SettingsTable) (name value : String) : SettingsTable :=
  if tbl.any (fun p => p.1 = name) then
    tbl.map fun p => if p.1 = name then (name, value) else p
  else tbl ++ [(name, value)]

/-- The committed effect of the upsert loop when every statement succeeds. -/
def applySettings (tbl : SettingsTable) (entries : List (String × ReqValue)) :
    SettingsTable :=
  entries.foldl (fun t e => upsert t e.1 (valueToStore e.2)) tbl

/-- The upsert loop against the transaction's working state; `queryOk i`
tells whether the i-th `client.query` succeeds, `none` is the thrown error. -/
def runUpserts (queryOk : Nat → Bool) (i : Nat) (work : SettingsTable) :
    List (String × ReqValue) → Option SettingsTable
  | [] => some work
  | e :: es =>
    if queryOk i then runUpserts queryOk (i + 1) (upsert work e.1 (valueToStore e.2)) es
    else none

/-- `POST /api/settings` after the auth gate and body validation: `BEGIN`,
the upsert loop, then `COMMIT` on success or `ROLLBACK` (table unchanged)
on any statement failure. -/
def postSettingsBody (queryOk : Nat → Bool) (tbl : SettingsTable)
    (entries : List (String × ReqValue)) : SettingsTable × ApiResponse :=
  match runUpserts queryOk 0 tbl entries with
  | some work => (work, jsonMessage 200 "Settings saved successfully")
  | none => (tbl, jsonError 500 "Failed to save settings.")

/-! ## Carousel store -/

/-- `SELECT COALESCE(MAX(display_order), 0)`. -/
def maxOrder : List CarouselRow → Int
  | [] => 0
  | r :: rs => rs.foldl (fun m x => max m x.display_order) r.display_order

/-- SQL `ORDER BY display_order ASC, id ASC`. -/
def rowLE (a b : CarouselRow) : Prop :=
  a.display_order < b.display_order
    ∨ (a.display_order = b.display_order ∧ a.id ≤ b.id)

instance : DecidableRel rowLE := fun a b =>
  inferInstanceAs (Decidable (_ ∨ _))

/-- `GET /api/carousel`: all rows, sorted by the SQL ordering. -/
def listCarousel (rows : List CarouselRow) : List CarouselRow :=
  rows.insertionSort rowLE

/-- The row `POST /api/carousel` inserts (after a successful blob upload):
`linkURL || null`, `altText || 'Carousel Image'`, and
`display_order = COALESCE(MAX(display_order), 0) + 1`. -/
def newCarouselRow (st : ServerState) (url linkURL altText origFileName : String) :
    CarouselRow :=
  ⟨st.nextId, url,
    if linkURL = "" then none else some linkURL,
    if altText = "" then "Carousel Image" else altText,
    origFileName,
    maxOrder st.carousel + 1⟩

/-- `POST /api/carousel` after the auth gate and file check.  `putUrl` is the
blob-layer outcome: `some url` on success, `none` when `put` throws. -/
def postCarouselBody (putUrl : Option String) (st : ServerState)
    (linkURL altText origFileName : String) : ServerState × ApiResponse :=
  match putUrl with
  | none => (st, jsonError 500 "Failed to add carousel image.")
  | some url =>
    ({st with
        carousel := st.carousel ++ [newCarouselRow st url linkURL altText origFileName],
        nextId := st.nextId + 1,
        blobs := st.blobs ++ [url]},
      jsonMessage 201 "Carousel image added successfully.")

/-! ## Carousel deletion -/

/-- Outcome of one blob-layer call (`head` or `del`). -/
inductive BlobRes where
  | ok : BlobRes
  | notFound : BlobRes
  | failed : String → BlobRes
deriving Repr, DecidableEq

/-- Blob-layer behaviour for a request. -/
structure BlobOracle where
  headRes : String → BlobRes
  delRes : String → BlobRes

/-- Externally visible operations of the delete handler. -/
inductive Effect where
  | dbSelect : Int → Effect
  | dbDelete : Int → Effect
  | blobHead : String → Effect
  | blobDel : String → Effect
deriving Repr, DecidableEq

/-- JavaScript `parseInt(s, 10)`: skip whitespace, optional sign, then the
longest digit run; `NaN` (here `none`) when no digits follow. -/
def parseIntJS (s : String) : Option Int :=
  let cs := s.data.dropWhile fun c => c = ' ' || c = '\t' || c = '\n' || c = '\r'
  match cs with
  | '-' :: rest =>
    let ds := rest.takeWhile Char.isDigit
    if ds.isEmpty then none else some (-(digitsVal ds : Int))
  | '+' :: rest =>
    let ds := rest.takeWhile Char.isDigit
    if ds.isEmpty then none else some (digitsVal ds : Int)
  | rest =>
    let ds := rest.takeWhile Char.isDigit
    if ds.isEmpty then none else some (digitsVal ds : Int)

/-- `imageUrlToDelete.startsWith('http')` (string prefix test). -/
def startsWithJS (s p : String) : Bool := p.data.isPrefixOf s.data

/-- `SELECT image_url FROM carousel_images WHERE id = $1`. -/
def rowLookup (rows : List CarouselRow) (id : Int) : Option CarouselRow :=
  rows.find? fun r => r.id = id

/-- `DELETE /api/carousel/:id` after the auth gate (the `server.js` variant):
non-integer ids 400 before any query; a missing row rolls back with 404;
otherwise the row is deleted and the blob deletion is attempted, with every
blob outcome — found-and-deleted, 404, or any other failure — logged and the
transaction committed. -/
def deleteCarousel (oracle : BlobOracle) (st : ServerState) (idStr : String) :
    ServerState × ApiResponse × List Effect :=
  match parseIntJS idStr with
  | none => (st, jsonError 400 "Invalid image ID.", [])
  | some imageId =>
    match rowLookup st.carousel imageId with
    | none =>
      (st, jsonError 404 "Image not found in database.", [.dbSelect imageId])
    | some row =>
      let working := st.carousel.filter fun r => ¬ r.id = imageId
      let base := [Effect.dbSelect imageId, Effect.dbDelete imageId]
      if startsWithJS row.image_url "http" then
        match oracle.headRes row.image_url with
        | .ok =>
          match oracle.delRes row.image_url with
          | .ok =>
            ({st with
                carousel := working
                blobs := st.blobs.filter (fun b => ¬ b = row.image_url)},
              jsonMessage 200 "Carousel image deletion processed.",
              base ++ [.blobHead row.image_url, .blobDel row.image_url])
          | _ =>
            ({st with carousel := working},
              jsonMessage 200 "Carousel image deletion processed.",
              base ++ [.blobHead row.image_url, .blobDel row.image_url])
        | _ =>
          ({st with carousel := working},
            jsonMessage 200 "Carousel image deletion processed.",
            base ++ [.blobHead row.image_url])
      else
        ({st with carousel := working},
          jsonMessage 200 "Carousel image deletion processed.", base)

/-- The same endpoint in the older revision (`part_000`): identical except a
blob failure that is not a 404 is re-thrown, rolling the transaction back. -/
def deleteCarouselPart000 (oracle : BlobOracle) (st : ServerState) (idStr : String) :
    ServerState × ApiResponse × List Effect :=
  match parseIntJS idStr with
  | none => (st, jsonError 400 "Invalid image ID.", [])
  | some imageId =>
    match rowLookup st.carousel imageId with
    | none =>
      (st, jsonError 404 "Image not found in database.", [.dbSelect imageId])
    | some row =>
      let working := st.carousel.filter fun r => ¬ r.id = imageId
      let base := [Effect.dbSelect imageId, Effect.dbDelete imageId]
      if startsWithJS row.image_url "http" then
        match oracle.headRes row.image_url with
        | .ok =>
          match oracle.delRes row.image_url with
          | .ok =>
            ({st with
                carousel := working
                blobs := st.blobs.filter (fun b => ¬ b = row.image_url)},
              jsonMessage 200 "Carousel image deletion processed.",
              base ++ [.blobHead row.image_url, .blobDel row.image_url])
          | .notFound =>
            ({st with carousel := working},
              jsonMessage 200 "Carousel image deletion processed.",
              base ++ [.blobHead row.image_url, .blobDel row.image_url])
          | .failed _ =>
            (st, jsonError 500 "Failed to process image deletion.",
              base ++ [.blobHead row.image_url, .blobDel row.image_url])
        | .notFound =>
          ({st with carousel := working},
            jsonMessage 200 "Carousel image deletion processed.",
            base ++ [.blobHead row.image_url])
        | .failed _ =>
          (st, jsonError 500 "Failed to process image deletion.",
            base ++ [.blobHead row.image_url])
      else
        ({st with carousel := working},
          jsonMessage 200 "Carousel image deletion processed.", base)

/-! ## Logout -/

structure LogoutResult where
  state : ServerState
  resp : ApiResponse
  cookieCleared : Bool
deriving Repr, DecidableEq

/-- `POST /api/logout`: destroy an existing session and clear the cookie;
with no session, report success without touching anything.  `destroyOk`
models the session store's destroy call. -/
def logout (destroyOk : Bool) (st : ServerState) : LogoutResult :=
  match st.session with
  | some _ =>
    if destroyOk then
      ⟨{st with session := none}, jsonMessage 200 "Logout successful", true⟩
    else
      ⟨st, jsonMessage 500 "Logout failed due to server error.", false⟩
  | none => ⟨st, jsonMessage 200 "No active session to log out from.", false⟩

/-! ## Contact form dispatcher -/

/-- The environment variables the contact handler reads. -/
structure ContactEnv where
  actionDefault : Option String
  whatsappNumber : Option String
  contactEmailTo : Option String
  emailFromAddress : Option String
deriving Repr

/-- JavaScript `a || b` over possibly-empty strings (empty is falsy). -/
def orElseStr (a b : Option String) : Option String :=
  match a with
  | some s => if s = "" then b else some s
  | none => b

/-- `settings.contactFormAction || process.env.CONTACT_FORM_ACTION_DEFAULT
|| 'whatsapp'`. -/
def resolveContactAction (tbl : SettingsTable) (env : ContactEnv) : String :=
  match orElseStr (orElseStr (rawSetting tbl "contactFormAction") env.actionDefault)
      (some "whatsapp") with
  | some a => a
  | none => "whatsapp"

/-- The WhatsApp message body built from the submission. -/
def whatsappMessageBody (contactName contactEmail contactSubject contactMessage :
    String) : String :=
  "New Contact Form Submission:\nName: " ++ contactName ++ "\nEmail: " ++ contactEmail
    ++ "\nSubject: " ++ contactSubject ++ "\nMessage:\n" ++ contactMessage

/-- UTF-8 bytes of one character. -/
def utf8Bytes (c : Char) : List Nat :=
  let n := c.toNat
  if n < 128 then [n]
  else if n < 2048 then [192 + n / 64, 128 + n % 64]
  else if n < 65536 then [224 + n / 4096, 128 + (n / 64) % 64, 128 + n % 64]
  else [240 + n / 262144, 128 + (n / 4096) % 64, 128 + (n / 64) % 64, 128 + n % 64]

/-- Upper-case hexadecimal digit. -/
def hexUpper (n : Nat) : Char :=
  if n < 10 then Nat.digitChar n else Char.ofNat (55 + n)

/-- Characters `encodeURIComponent` leaves unescaped. -/
def isUriUnreserved (c : Char) : Bool :=
  c.isAlpha || c.isDigit || c = '-' || c = '_' || c = '.' || c = '!' || c = '~'
    || c = '*' || c = Char.ofNat 39 || c = '(' || c = ')'

/-- `encodeURIComponent`: unreserved characters pass through, everything else
is percent-encoded byte-wise in UTF-8. -/
def encodeURIComponent (s : String) : String :=
  String.mk ((s.data.map fun c =>
    if isUriUnreserved c then [c]
    else ((utf8Bytes c).map fun b => ['%', hexUpper (b / 16), hexUpper (b % 16)]).flatten
    ).flatten)

/-- `whatsAppNumber.replace(/\D/g, '')`. -/
def digitsOnly (s : String) : String := String.mk (s.data.filter Char.isDigit)

/-- The `wa.me` deep link the whatsapp branch returns. -/
def whatsappLink (number body : String) : String :=
  "https://wa.me/" ++ digitsOnly number ++ "?text=" ++ encodeURIComponent body

/-- The response body of `POST /api/submit-contact`. -/
structure ContactResponse where
  status : Nat
  success : Bool
  action : Option String
  whatsappUrl : Option String
  message : String
deriving Repr, DecidableEq

/-- One outbound email. -/
structure Mail where
  mailFrom : String
  replyTo : String
  mailTo : String
  subject : String
  text : String
deriving Repr, DecidableEq

/-- `POST /api/submit-contact`.  `mailerAvailable` models whether the SMTP
transporter was configured, `sendOk` the transport outcome; the second
component lists the emails actually sent. -/
def submitContact (env : ContactEnv) (mailerAvailable sendOk : Bool)
    (tbl : SettingsTable)
    (contactName contactEmail contactSubject contactMessage : String) :
    ContactResponse × List Mail :=
  if contactName = "" || contactEmail = "" || contactSubject = "" || contactMessage = ""
  then (⟨400, false, none, none, "All fields are required."⟩, [])
  else
    let action := resolveContactAction tbl env
    if action = "whatsapp" then
      match orElseStr (rawSetting tbl "adminSchoolWhatsappNumber") env.whatsappNumber with
      | none => (⟨500, false, none, none, "Server error: WhatsApp number not set."⟩, [])
      | some num =>
        if num = "" then
          (⟨500, false, none, none, "Server error: WhatsApp number not set."⟩, [])
        else
          (⟨200, true, some "whatsapp",
            some (whatsappLink num (whatsappMessageBody contactName contactEmail
              contactSubject contactMessage)),
            "Please click " ++ sq ++ "Send" ++ sq ++ " in WhatsApp."⟩, [])
    else if action = "email" then
      if mailerAvailable = false then
        (⟨500, false, none, none, "Server error: Email service not available."⟩, [])
      else
        match orElseStr (rawSetting tbl "schoolContactEmail") env.contactEmailTo with
        | none => (⟨500, false, none, none, "Server error: Recipient email not set."⟩, [])
        | some recipient =>
          if recipient = "" then
            (⟨500, false, none, none, "Server error: Recipient email not set."⟩, [])
          else
            let mail : Mail :=
              ⟨"\"" ++ contactName ++ " via School Website\" <"
                  ++ (orElseStr env.emailFromAddress (some "noreply@example.com")).getD
                    "noreply@example.com" ++ ">",
                contactEmail, recipient, "New Contact Form: " ++ contactSubject,
                "You have a new submission:\n\nName: " ++ contactName ++ "\nEmail: "
                  ++ contactEmail ++ "\n\nMessage:\n" ++ contactMessage⟩
            if sendOk then
              (⟨200, true, some "email", none,
                "Your message has been sent successfully!"⟩, [mail])
            else
              (⟨500, false, some "email", none,
                "Failed to send message. Please try again later."⟩, [])
    else (⟨500, false, none, none,
      "Server configuration error: Invalid contact form action."⟩, [])

/-! ## The guarded mutating endpoints -/

/-- Upload handler shared by the three image-upload endpoints. -/
def uploadBody (entity : String) (putUrl : Option String) (hasFile : Bool)
    (st : ServerState) : ServerState × ApiResponse :=
  if hasFile = false then (st, jsonMessage 400 ("No " ++ entity ++ " file provided."))
  else
    match putUrl with
    | none => (st, jsonMessage 500 ("Failed to upload " ++ entity ++ "."))
    | some url =>
      ({st with blobs := st.blobs ++ [url]},
        jsonMessage 200 (entity ++ " uploaded successfully to Vercel Blob."))

/-- A request to one of the session-guarded mutating endpoints. -/
inductive MutRequest where
  | postSettings : Option (List (String × ReqValue)) → MutRequest
  | postCarousel : Bool → String → String → String → MutRequest
  | deleteCarousel : String → MutRequest
  | uploadLogo : Bool → MutRequest
  | uploadAbout : Bool → MutRequest
  | uploadAcademics : Bool → MutRequest

/-- `req.originalUrl` of each guarded endpoint. -/
def mutPath : MutRequest → String
  | .postSettings _ => "/api/settings"
  | .postCarousel _ _ _ _ => "/api/carousel"
  | .deleteCarousel idStr => "/api/carousel/" ++ idStr
  | .uploadLogo _ => "/api/upload-logo"
  | .uploadAbout _ => "/api/upload-about-image"
  | .uploadAcademics _ => "/api/upload-academics-image"

/-- External-system outcomes available to a request. -/
structure Oracles where
  putUrl : Option String
  blob : BlobOracle
  queryOk : Nat → Bool

/-- Dispatch one guarded request: `checkAuth` first, then the endpoint body. -/
def handleMut (orc : Oracles) (st : ServerState) (req : MutRequest) :
    ServerState × ApiResponse × List Effect :=
  match checkAuth (mutPath req) st.session with
  | .denyApi resp => (st, resp, [])
  | .denyPage loc => (st, ⟨302, none, none, some loc⟩, [])
  | .proceed =>
    match req with
    | .postSettings body =>
      match body with
      | none =>
        (st, jsonError 400 ("Missing or invalid " ++ sq ++ "settings" ++ sq ++ " object."),
          [])
      | some entries =>
        let p := postSettingsBody orc.queryOk st.settings entries
        ({st with settings := p.1}, p.2, [])
    | .postCarousel hasFile linkURL altText origFileName =>
      if hasFile then
        let p := postCarouselBody orc.putUrl st linkURL altText origFileName
        (p.1, p.2, [])
      else (st, jsonError 400 "No carousel image file uploaded.", [])
    | .deleteCarousel idStr => deleteCarousel orc.blob st idStr
    | .uploadLogo hasFile =>
      let p := uploadBody "Logo" orc.putUrl hasFile st
      (p.1, p.2, [])
    | .uploadAbout hasFile =>
      let p := uploadBody "About image" orc.putUrl hasFile st
      (p.1, p.2, [])
    | .uploadAcademics hasFile =>
      let p := uploadBody "Academics image" orc.putUrl hasFile st
      (p.1, p.2, [])

/-! ## Settings-store lemmas -/

theorem foldl_lookup_acc (l : List (String × String)) (k : String) (acc : Option String) :
    l.foldl (fun a p => if p.1 = k then some p.2 else a) acc
      = if l.any (fun p => p.1 = k) then
          l.foldl (fun a p => if p.1 = k then some p.2 else a) none
        else acc := by
  induction l generalizing acc with
  | nil => simp
  | cons p ts ih =>
    by_cases hp : p.1 = k
    · simp [List.foldl_cons, List.any_cons, hp]
    · have hd : decide (p.1 = k) = false := by simp [hp]
      simp only [List.foldl_cons, List.any_cons, hd, Bool.false_or, if_neg hp]
      exact ih acc

theorem any_key_map_upsert (ts : List (String × String)) (k val : String) :
    ((ts.map fun p => if p.1 = k then (k, val) else p).any fun p => p.1 = k)
      = (ts.any fun p => p.1 = k) := by
  induction ts with
  | nil => rfl
  | cons p ts ih =>
    by_cases hp : p.1 = k <;> simp [hp, ih]

theorem rawSetting_append (t u : SettingsTable) (k : String) :
    rawSetting (t ++ u) k
      = u.foldl (fun a p => if p.1 = k then some p.2 else a) (rawSetting t k) := by
  simp [rawSetting, List.foldl_append]

theorem rawSetting_map_upsert (t : SettingsTable) (k val : String)
    (h : t.any (fun p => p.1 = k) = true) :
    rawSetting (t.map fun p => if p.1 = k then (k, val) else p) k = some val := by
  induction t with
  | nil => simp at h
  | cons p ts ih =>
    by_cases hp : p.1 = k
    · simp only [rawSetting, List.map_cons, if_pos hp, List.foldl_cons]
      rw [if_pos trivial, foldl_lookup_acc, any_key_map_upsert]
      by_cases hts : ts.any (fun p => p.1 = k) = true
      · rw [if_pos hts]
        have := ih hts
        simpa [rawSetting] using this
      · rw [if_neg hts]
    · have hts : ts.any (fun p => p.1 = k) = true := by
        simpa [List.any_cons, hp] using h
      simp only [rawSetting, List.map_cons, if_neg hp, List.foldl_cons]
      have := ih hts
      simpa [rawSetting] using this

theorem rawSetting_upsert_self (t : SettingsTable) (k val : String) :
    rawSetting (upsert t k val) k = some val := by
  unfold upsert
  by_cases h : t.any (fun p => p.1 = k) = true
  · rw [if_pos h]
    exact rawSetting_map_upsert t k val h
  · rw [if_neg h, rawSetting_append]
    simp

theorem foldl_lookup_map_upsert (ts : List (String × String)) (k name val : String)
    (h : k ≠ name) :
    ∀ acc, List.foldl (fun a p => if p.1 = name then some p.2 else a) acc
        (ts.map fun p => if p.1 = k then (k, val) else p)
      = List.foldl (fun a p => if p.1 = name then some p.2 else a) acc ts := by
  induction ts with
  | nil => intro acc; rfl
  | cons p ts ih =>
    intro acc
    by_cases hp : p.1 = k
    · have hpn : p.1 ≠ name := by rw [hp]; exact h
      simp only [List.map_cons, if_pos hp, List.foldl_cons]
      rw [ih]
      rw [show (if (k, val).1 = name then some (k, val).2 else acc) = acc by simp [h],
        show (if p.1 = name then some p.2 else acc) = acc by simp [hpn]]
    · simp only [List.map_cons, if_neg hp, List.foldl_cons]
      exact ih _

theorem rawSetting_upsert_other (t : SettingsTable) (k name val : String)
    (h : k ≠ name) :
    rawSetting (upsert t k val) name = rawSetting t name := by
  by_cases hcase : t.any (fun p => p.1 = k) = true
  · simp only [upsert, if_pos hcase]
    exact foldl_lookup_map_upsert t k name val h none
  · simp only [upsert, if_neg hcase]
    rw [rawSetting_append]
    simp [h]

theorem applySettings_append (t : SettingsTable) (l1 l2 : List (String × ReqValue)) :
    applySettings t (l1 ++ l2) = applySettings (applySettings t l1) l2 := by
  simp [applySettings, List.foldl_append]

theorem rawSetting_applySettings_of_not_mem (t : SettingsTable)
    (entries : List (String × ReqValue)) (name : String)
    (h : ∀ e ∈ entries, e.1 ≠ name) :
    rawSetting (applySettings t entries) name = rawSetting t name := by
  induction entries generalizing t with
  | nil => rfl
  | cons e es ih =>
    simp only [applySettings, List.foldl_cons]
    rw [show List.foldl (fun t e => upsert t e.1 (valueToStore e.2))
        (upsert t e.1 (valueToStore e.2)) es
        = applySettings (upsert t e.1 (valueToStore e.2)) es from rfl]
    rw [ih _ (fun x hx => h x (by simp [hx]))]
    exact rawSetting_upsert_other t e.1 name _ (h e (by simp))

/-- The value stored for an entry survives to the committed table as long as
no later entry reuses its key. -/
theorem rawSetting_applySettings_last (t : SettingsTable)
    (pre post : List (String × ReqValue)) (k : String) (v : ReqValue)
    (h : ∀ e ∈ post, e.1 ≠ k) :
    rawSetting (applySettings t (pre ++ (k, v) :: post)) k
      = some (valueToStore v) := by
  rw [show pre ++ (k, v) :: post = (pre ++ [(k, v)]) ++ post by simp,
    applySettings_append, rawSetting_applySettings_of_not_mem _ _ _ h,
    applySettings_append]
  simp only [applySettings, List.foldl_cons, List.foldl_nil]
  exact rawSetting_upsert_self _ k _

theorem runUpserts_ok (queryOk : Nat → Bool) (es : List (String × ReqValue)) :
    ∀ (i : Nat) (w : SettingsTable), (∀ j, j < es.length → queryOk (i + j) = true) →
    runUpserts queryOk i w es = some (applySettings w es) := by
  induction es with
  | nil => intro i w _; rfl
  | cons e es ih =>
    intro i w h
    have h0 : queryOk i = true := by simpa using h 0 (by simp)
    simp only [runUpserts, h0, if_pos rfl]
    rw [ih (i + 1) _ (fun j hj => by
      have := h (j + 1) (by simpa using Nat.succ_lt_succ hj)
      simpa [Nat.add_assoc, Nat.add_comm 1 j] using this)]
    rfl

theorem runUpserts_fail (queryOk : Nat → Bool) (es : List (String × ReqValue)) :
    ∀ (i : Nat) (w : SettingsTable), (∃ j, j < es.length ∧ queryOk (i + j) = false) →
    runUpserts queryOk i w es = none := by
  induction es with
  | nil =>
    intro i w h
    rcases h with ⟨j, hj, _⟩
    simp at hj
  | cons e es ih =>
    intro i w h
    by_cases h0 : queryOk i = true
    · simp only [runUpserts, h0, if_pos rfl]
      rcases h with ⟨j, hj, hfail⟩
      cases j with
      | zero => rw [Nat.add_zero] at hfail; rw [h0] at hfail; cases hfail
      | succ j =>
        exact ih (i + 1) _ ⟨j, by simpa using Nat.lt_of_succ_lt_succ hj,
          by simpa [Nat.add_assoc, Nat.add_comm 1 j] using hfail⟩
    · simp only [runUpserts]
      rw [if_neg h0]

/-- `getSetting` decodes exactly the raw last-wins lookup (there is no error
path in the read). -/
theorem getSetting_eq_map (tbl : SettingsTable) (name : String) :
    getSetting tbl name = (rawSetting tbl name).map (decodeSetting name) := by
  have haux : ∀ (t : SettingsTable) (accS : Option String),
      List.foldl (fun acc p => if p.1 = name then some p.2 else acc)
        (accS.map (decodeSetting name)) (getAllPairs t)
      = (List.foldl (fun a p => if p.1 = name then some p.2 else a) accS t).map
          (decodeSetting name) := by
    intro t
    induction t with
    | nil => intro accS; rfl
    | cons p ts ih =>
      intro accS
      by_cases hp : p.1 = name
      · simp only [getAllPairs, List.map_cons, List.foldl_cons, if_pos hp]
        have := ih (some p.2)
        simp only [Option.map_some, getAllPairs] at this ⊢
        rw [← hp] at this ⊢
        exact this
      · simp only [getAllPairs, List.map_cons, List.foldl_cons, if_neg hp]
        exact ih accS
  have := haux tbl none
  simpa [getSetting, objLookup, rawSetting] using this

theorem isPrefixOf_append_self (l t : List Char) : l.isPrefixOf (l ++ t) = true := by
  induction l with
  | nil => simp [List.isPrefixOf]
  | cons c cs ih => simp [List.isPrefixOf, ih]

theorem jsonStringify_ne_empty (v : JSValue)
    (hv : (∃ fs, v = JSValue.jobj fs) ∨ (∃ xs, v = JSValue.jarr xs)) :
    jsonStringify v ≠ "" := by
  rcases hv with ⟨fs, rfl⟩ | ⟨xs, rfl⟩ <;>
    · intro hcon
      have hdata := congrArg String.data hcon
      rw [show (jsonStringify _).data = strVal _ from rfl] at hdata
      simp [strVal] at hdata

theorem rawSetting_some_of_any (tbl : SettingsTable) (name : String)
    (h : tbl.any (fun p => p.1 = name) = true) :
    ∃ v, rawSetting tbl name = some v := by
  induction tbl with
  | nil => simp at h
  | cons p ts ih =>
    by_cases hts : ts.any (fun p => p.1 = name) = true
    · rcases ih hts with ⟨v, hv⟩
      refine ⟨v, ?_⟩
      simp only [rawSetting, List.foldl_cons]
      rw [foldl_lookup_acc, if_pos hts]
      simpa [rawSetting] using hv
    · have hp : p.1 = name := by
        simp only [List.any_cons, hts, Bool.or_false] at h
        simpa using h
      refine ⟨p.2, ?_⟩
      simp only [rawSetting, List.foldl_cons]
      rw [show (if p.1 = name then some p.2 else (none : Option String)) = some p.2
        from if_pos hp]
      rw [foldl_lookup_acc, if_neg hts]


/-! ## Claim theorems: settings -/

/-- C2: for every entry (key, value) passed to the settings bulk upsert
(`POST /api/settings`), a non-string non-null object value is stored as its
JSON serialization and a null or undefined value is stored as the empty
string: the committed table holds `valueToStore` of the last entry for the
key, and `valueToStore` is `JSON.stringify` on objects and arrays and `""`
on null and undefined. -/
theorem settings_value_serialization (tbl : SettingsTable)
    (pre post : List (String × ReqValue)) (k : String) (v : ReqValue)
    (h : ∀ e ∈ post, e.1 ≠ k) :
    rawSetting (applySettings tbl (pre ++ (k, v) :: post)) k = some (valueToStore v)
    ∧ (∀ fs, valueToStore (.jv (.jobj fs)) = jsonStringify (.jobj fs))
    ∧ (∀ xs, valueToStore (.jv (.jarr xs)) = jsonStringify (.jarr xs))
    ∧ valueToStore (.jv .jnull) = ""
    ∧ valueToStore .undef = "" :=
  ⟨rawSetting_applySettings_last tbl pre post k v h,
    fun _ => rfl, fun _ => rfl, rfl, rfl⟩

theorem settings_value_serialization_witness :
    (∀ e ∈ ([] : List (String × ReqValue)), e.1 ≠ "socialLinks")
    ∧ rawSetting (applySettings []
        ([] ++ ("socialLinks", ReqValue.jv (.jobj [("facebook", .jstr "fb")])) :: []))
        "socialLinks"
      = some "\x7b\"facebook\":\"fb\"\x7d" := by
  refine ⟨by simp, ?_⟩
  have h := (settings_value_serialization [] [] [] "socialLinks"
    (ReqValue.jv (.jobj [("facebook", .jstr "fb")])) (by simp)).1
  have hval : valueToStore (ReqValue.jv (.jobj [("facebook", .jstr "fb")]))
      = "\x7b\"facebook\":\"fb\"\x7d" := by decide
  rw [hval] at h
  exact h

/-- C3: the settings bulk upsert is atomic over its whole map: when every
statement succeeds the whole map commits (last write per name wins); when any
statement fails the table is unchanged and the request reports an error; and
no other outcome exists. -/
theorem settings_setMany_atomic (queryOk : Nat → Bool) (tbl : SettingsTable)
    (entries : List (String × ReqValue)) :
    ((∀ j, j < entries.length → queryOk j = true) →
      postSettingsBody queryOk tbl entries
        = (applySettings tbl entries, jsonMessage 200 "Settings saved successfully"))
    ∧ ((∃ j, j < entries.length ∧ queryOk j = false) →
      postSettingsBody queryOk tbl entries
        = (tbl, jsonError 500 "Failed to save settings."))
    ∧ ((postSettingsBody queryOk tbl entries).1 = applySettings tbl entries
        ∨ (postSettingsBody queryOk tbl entries).1 = tbl)
    ∧ (∀ pre post k v, (∀ e ∈ post, e.1 ≠ k) →
      rawSetting (applySettings tbl (pre ++ (k, v) :: post)) k
        = some (valueToStore v)) := by
  have hsucc : (∀ j, j < entries.length → queryOk j = true) →
      postSettingsBody queryOk tbl entries
        = (applySettings tbl entries, jsonMessage 200 "Settings saved successfully") := by
    intro hq
    unfold postSettingsBody
    rw [runUpserts_ok queryOk entries 0 tbl (fun j hj => by simpa using hq j hj)]
  have hfail : (∃ j, j < entries.length ∧ queryOk j = false) →
      postSettingsBody queryOk tbl entries
        = (tbl, jsonError 500 "Failed to save settings.") := by
    intro hq
    unfold postSettingsBody
    rcases hq with ⟨j, hj, hjf⟩
    rw [runUpserts_fail queryOk entries 0 tbl ⟨j, hj, by simpa using hjf⟩]
  refine ⟨hsucc, hfail, ?_, fun pre post k v h =>
    rawSetting_applySettings_last tbl pre post k v h⟩
  by_cases hall : ∀ j, j < entries.length → queryOk j = true
  · left
    rw [hsucc hall]
  · right
    push_neg at hall
    rcases hall with ⟨j, hj, hjf⟩
    rw [hfail ⟨j, hj, by simpa using hjf⟩]

theorem settings_setMany_atomic_witness :
    (∀ j, j < ([("a", ReqValue.jv .jnull)] : List (String × ReqValue)).length →
      (fun _ => true : Nat → Bool) j = true)
    ∧ postSettingsBody (fun _ => true) [] [("a", ReqValue.jv .jnull)]
      = (applySettings [] [("a", ReqValue.jv .jnull)],
        jsonMessage 200 "Settings saved successfully") := by
  refine ⟨fun j _ => rfl, ?_⟩
  exact (settings_setMany_atomic (fun _ => true) [] [("a", ReqValue.jv .jnull)]).1
    (fun j _ => rfl)

/-- C4: settings round-trip: for every key in the fixed JSON-key set and every
JSON-encodable object or array value, a successful `setMany` of that entry
followed by `getAll()` returns the same value at that key. -/
theorem settings_roundtrip (tbl : SettingsTable) (k : String) (v : JSValue)
    (hk : k ∈ jsonKeys)
    (hv : (∃ fs, v = JSValue.jobj fs) ∨ (∃ xs, v = JSValue.jarr xs)) :
    getSetting (postSettingsBody (fun _ => true) tbl [(k, .jv v)]).1 k = some v := by
  have hcommit : (postSettingsBody (fun _ => true) tbl [(k, .jv v)]).1
      = applySettings tbl [(k, .jv v)] := by
    unfold postSettingsBody
    rw [runUpserts_ok (fun _ => true) [(k, .jv v)] 0 tbl (fun _ _ => rfl)]
  have hstore : valueToStore (.jv v) = jsonStringify v := by
    rcases hv with ⟨fs, rfl⟩ | ⟨xs, rfl⟩ <;> rfl
  rw [hcommit, show applySettings tbl [(k, .jv v)] = upsert tbl k (valueToStore (.jv v))
    from rfl, getSetting_eq_map, rawSetting_upsert_self]
  show some (decodeSetting k (valueToStore (.jv v))) = some v
  congr 1
  unfold decodeSetting
  rw [if_pos hk, if_neg (by rw [hstore]; exact jsonStringify_ne_empty v hv), hstore,
    jsonParse_jsonStringify]

theorem settings_roundtrip_witness :
    "socialLinks" ∈ jsonKeys
    ∧ getSetting (postSettingsBody (fun _ => true) []
        [("socialLinks", ReqValue.jv (.jobj [("a", .jstr "b")]))]).1 "socialLinks"
      = some (JSValue.jobj [("a", .jstr "b")]) := by
  refine ⟨by decide, ?_⟩
  exact settings_roundtrip [] "socialLinks" (.jobj [("a", .jstr "b")]) (by decide)
    (Or.inl ⟨_, rfl⟩)

/-- C7: the settings reader never propagates a JSON parse error: a JSON-key
row whose stored value is empty or unparsable decodes to the type-appropriate
empty default (`[]` for facilityCards, the empty object for the others), the
response is the decoded raw lookup with no error path, every stored row
appears in the response, and any present key yields a value. -/
theorem getAll_parse_safe :
    (∀ name value, name ∈ jsonKeys → (value = "" ∨ jsonParse value = none) →
      decodeSetting name value = defaultFor name)
    ∧ defaultFor "facilityCards" = JSValue.jarr []
    ∧ (∀ name, name ∈ jsonKeys → name ≠ "facilityCards" →
      defaultFor name = JSValue.jobj [])
    ∧ (∀ tbl name, getSetting tbl name = (rawSetting tbl name).map (decodeSetting name))
    ∧ (∀ tbl, (getAllPairs tbl).length = tbl.length)
    ∧ (∀ tbl name, tbl.any (fun p => p.1 = name) = true →
      ∃ v, getSetting tbl name = some v) := by
  refine ⟨?_, rfl, ?_, getSetting_eq_map, ?_, ?_⟩
  · intro name value hname hval
    unfold decodeSetting
    rw [if_pos hname]
    by_cases hemp : value = ""
    · rw [if_pos hemp]
    · rw [if_neg hemp]
      rcases hval with hval | hval
      · exact absurd hval hemp
      · rw [hval]
  · intro name _ hfc
    unfold defaultFor
    rw [if_neg hfc]
  · intro tbl
    simp [getAllPairs]
  · intro tbl name hany
    rcases rawSetting_some_of_any tbl name hany with ⟨v, hv⟩
    exact ⟨decodeSetting name v, by rw [getSetting_eq_map, hv]; rfl⟩

theorem getAll_parse_safe_witness :
    "facilityCards" ∈ jsonKeys
    ∧ (("notjson" : String) = "" ∨ jsonParse "notjson" = none)
    ∧ decodeSetting "facilityCards" "notjson" = JSValue.jarr [] := by
  refine ⟨by decide, Or.inr rfl, ?_⟩
  have h := getAll_parse_safe.1 "facilityCards" "notjson" (by decide) (Or.inr rfl)
  rw [h]
  rfl


/-! ## Claim theorems: auth gate, logout, invalid delete id -/

theorem mutPath_isApi (req : MutRequest) : isApiPath (mutPath req) = true := by
  cases req with
  | deleteCarousel idStr =>
    show ("/api/".data.isPrefixOf ("/api/carousel/" ++ idStr).data) = true
    rfl
  | postSettings body => rfl
  | postCarousel hasFile l a f => rfl
  | uploadLogo hasFile => rfl
  | uploadAbout hasFile => rfl
  | uploadAcademics hasFile => rfl

/-- C6: every request to a mutating settings, carousel or upload endpoint
without an authenticated session gets the 401 unauthorized JSON with the
machine-readable redirect hint, and the server state — settings, carousel,
blobs, everything — is unchanged, with no effects performed. -/
theorem auth_gate (orc : Oracles) (st : ServerState) (req : MutRequest)
    (h : isAuthed st.session = false) :
    handleMut orc st req = (st, unauthorizedResp, [])
    ∧ unauthorizedResp.status = 401
    ∧ unauthorizedResp.redirectTo = some "/login.html?unauthorized=true" := by
  refine ⟨?_, rfl, rfl⟩
  unfold handleMut checkAuth
  rw [h]
  rw [mutPath_isApi req]
  rfl

theorem auth_gate_witness :
    isAuthed (ServerState.mk [] [] 1 [] none).session = false
    ∧ handleMut ⟨none, ⟨fun _ => .ok, fun _ => .ok⟩, fun _ => true⟩
        (ServerState.mk [] [] 1 [] none) (MutRequest.uploadLogo true)
      = (ServerState.mk [] [] 1 [] none, unauthorizedResp, []) := by
  refine ⟨rfl, ?_⟩
  exact (auth_gate ⟨none, ⟨fun _ => .ok, fun _ => .ok⟩, fun _ => true⟩
    (ServerState.mk [] [] 1 [] none) (MutRequest.uploadLogo true) rfl).1

/-- C9: logout is idempotent: on any state the first call leaves no session,
reports success, clears the cookie when a session existed, and touches no
stored data; an immediate second call (now with no session) also reports
success and changes nothing. -/
theorem logout_idempotent (st : ServerState) :
    ((logout true st).state.session = none
      ∧ (logout true st).resp.status = 200
      ∧ (st.session ≠ none → (logout true st).cookieCleared = true)
      ∧ (logout true st).state.settings = st.settings
      ∧ (logout true st).state.carousel = st.carousel
      ∧ (logout true st).state.blobs = st.blobs)
    ∧ (logout true (logout true st).state).state = (logout true st).state
    ∧ (logout true (logout true st).state).resp.status = 200 := by
  cases hs : st.session <;> simp [logout, hs, jsonMessage]

theorem logout_idempotent_witness :
    (logout true (ServerState.mk [] [] 1 [] (some ⟨true, "admin"⟩))).state.session = none
    ∧ (logout true (ServerState.mk [] [] 1 []
        (some ⟨true, "admin"⟩))).cookieCleared = true := by
  have h := logout_idempotent (ServerState.mk [] [] 1 [] (some ⟨true, "admin"⟩))
  exact ⟨h.1.1, h.1.2.2.1 (by simp)⟩

/-- C10: an authenticated `DELETE /api/carousel/:id` whose id does not parse
as an integer answers 400 invalid-ID, performs no database query or blob
operation (empty effect trace), and leaves the state unchanged. -/
theorem delete_invalid_id (orc : Oracles) (st : ServerState) (idStr : String)
    (hauth : isAuthed st.session = true) (hparse : parseIntJS idStr = none) :
    handleMut orc st (MutRequest.deleteCarousel idStr)
      = (st, jsonError 400 "Invalid image ID.", []) := by
  unfold handleMut checkAuth
  rw [hauth]
  show deleteCarousel orc.blob st idStr = _
  unfold deleteCarousel
  rw [hparse]

theorem delete_invalid_id_witness :
    isAuthed (ServerState.mk [] [] 1 [] (some ⟨true, "admin"⟩)).session = true
    ∧ parseIntJS "abc" = none
    ∧ handleMut ⟨none, ⟨fun _ => .ok, fun _ => .ok⟩, fun _ => true⟩
        (ServerState.mk [] [] 1 [] (some ⟨true, "admin"⟩))
        (MutRequest.deleteCarousel "abc")
      = (ServerState.mk [] [] 1 [] (some ⟨true, "admin"⟩),
        jsonError 400 "Invalid image ID.", []) := by
  refine ⟨rfl, rfl, ?_⟩
  exact delete_invalid_id ⟨none, ⟨fun _ => .ok, fun _ => .ok⟩, fun _ => true⟩
    (ServerState.mk [] [] 1 [] (some ⟨true, "admin"⟩)) "abc" rfl rfl


/-! ## Claim theorems: carousel deletion vs. blob failures (C1) -/

/-- The fixture for the C1 analysis: one carousel row backed by an `http`
blob, an authenticated session, and a blob layer whose `del` fails with an
error that is not a 404. -/
def c1Row : CarouselRow := ⟨1, "http://x/img.png", none, "alt", "img.png", 1⟩

def c1State : ServerState :=
  ⟨[], [c1Row], 2, ["http://x/img.png"], some ⟨true, "admin"⟩⟩

def c1Oracle : BlobOracle := ⟨fun _ => .ok, fun _ => .failed "forbidden"⟩

/-- C1 counterexample: on `server.js`, with an existing row and a blob
deletion that fails with a non-404 error, the transaction still commits: the
`carousel_images` row is gone and the request reports success (200), not a
storage error with the row still present — so the claim as stated is false. -/
theorem carousel_delete_blob_failure_counterexample :
    rowLookup c1State.carousel 1 = some c1Row
    ∧ c1Oracle.delRes c1Row.image_url = BlobRes.failed "forbidden"
    ∧ (deleteCarousel c1Oracle c1State "1").1.carousel = []
    ∧ (deleteCarousel c1Oracle c1State "1").2.1.status = 200
    ∧ ¬ ((deleteCarousel c1Oracle c1State "1").2.1.status = 500
        ∧ (deleteCarousel c1Oracle c1State "1").1.carousel = c1State.carousel) := by
  refine ⟨rfl, rfl, rfl, rfl, ?_⟩
  intro hcon
  have : (200 : Nat) = 500 := by
    have h : (deleteCarousel c1Oracle c1State "1").2.1.status = 200 := rfl
    rw [← h]
    exact hcon.1
  omega

/-- Shared helper: whenever the row exists, the `server.js` delete handler
commits regardless of the blob outcome. -/
theorem deleteCarousel_found_commits (oracle : BlobOracle)
    (st : ServerState) (idStr : String) (id : Int) (row : CarouselRow)
    (hparse : parseIntJS idStr = some id)
    (hrow : rowLookup st.carousel id = some row) :
    (deleteCarousel oracle st idStr).1.carousel
        = st.carousel.filter (fun r => ¬ r.id = id)
    ∧ (deleteCarousel oracle st idStr).2.1
        = jsonMessage 200 "Carousel image deletion processed."
    ∧ (deleteCarousel oracle st idStr).1.settings = st.settings
    ∧ (deleteCarousel oracle st idStr).1.session = st.session := by
  unfold deleteCarousel
  simp only [hparse, hrow]
  by_cases hurl : startsWithJS row.image_url "http" = true
  · rw [if_pos hurl]
    cases hh : oracle.headRes row.image_url with
    | ok =>
      cases hd : oracle.delRes row.image_url with
      | ok => exact ⟨rfl, rfl, rfl, rfl⟩
      | notFound => exact ⟨rfl, rfl, rfl, rfl⟩
      | failed msg => exact ⟨rfl, rfl, rfl, rfl⟩
    | notFound => exact ⟨rfl, rfl, rfl, rfl⟩
    | failed msg => exact ⟨rfl, rfl, rfl, rfl⟩
  · rw [if_neg hurl]
    exact ⟨rfl, rfl, rfl, rfl⟩

/-- C1 (amended): in `server.js`, a blob-layer 404 on deletion is treated as
success — and so is every other blob-layer failure: whenever the row exists,
the database change commits (the row is removed, everything else untouched)
and the request reports success, for every blob outcome. -/
theorem carousel_delete_tolerates_blob_failure (oracle : BlobOracle)
    (st : ServerState) (idStr : String) (id : Int) (row : CarouselRow)
    (hparse : parseIntJS idStr = some id)
    (hrow : rowLookup st.carousel id = some row) :
    (deleteCarousel oracle st idStr).1.carousel
        = st.carousel.filter (fun r => ¬ r.id = id)
    ∧ (deleteCarousel oracle st idStr).2.1
        = jsonMessage 200 "Carousel image deletion processed."
    ∧ (deleteCarousel oracle st idStr).1.settings = st.settings
    ∧ (deleteCarousel oracle st idStr).1.session = st.session :=
  deleteCarousel_found_commits oracle st idStr id row hparse hrow

theorem carousel_delete_tolerates_blob_failure_witness :
    parseIntJS "1" = some 1
    ∧ rowLookup c1State.carousel 1 = some c1Row
    ∧ (deleteCarousel c1Oracle c1State "1").1.carousel
        = c1State.carousel.filter (fun r => ¬ r.id = 1)
    ∧ (deleteCarousel c1Oracle c1State "1").2.1
        = jsonMessage 200 "Carousel image deletion processed." := by
  refine ⟨rfl, rfl, ?_, ?_⟩
  · exact (carousel_delete_tolerates_blob_failure c1Oracle c1State "1" 1 c1Row
      rfl rfl).1
  · exact (carousel_delete_tolerates_blob_failure c1Oracle c1State "1" 1 c1Row
      rfl rfl).2.1

/-- Contrast (not a claim theorem): the older `part_000` revision of the same
endpoint does satisfy the original claim — a non-404 blob failure re-throws,
the transaction rolls back, the row is still present, and the request reports
a storage error, while a 404 is tolerated as success. -/
theorem carousel_delete_part000_rollback (oracle : BlobOracle)
    (st : ServerState) (idStr : String) (id : Int) (row : CarouselRow) (msg : String)
    (hparse : parseIntJS idStr = some id)
    (hrow : rowLookup st.carousel id = some row)
    (hurl : startsWithJS row.image_url "http" = true)
    (hhead : oracle.headRes row.image_url = BlobRes.ok)
    (hdel : oracle.delRes row.image_url = BlobRes.failed msg) :
    (deleteCarouselPart000 oracle st idStr).1 = st
    ∧ (deleteCarouselPart000 oracle st idStr).2.1
        = jsonError 500 "Failed to process image deletion."
    ∧ (deleteCarouselPart000 oracle {st with session := st.session} idStr).1.carousel
        = st.carousel := by
  unfold deleteCarouselPart000
  simp only [hparse, hrow]
  rw [if_pos hurl, hhead, hdel]
  exact ⟨rfl, rfl, rfl⟩


/-! ## Claim theorems: contact form whatsapp branch (C8) -/

/-- C8: for a well-formed submission resolving to the whatsapp action, a
missing or empty configured phone number (settings override, then
environment) fails with a configuration error; otherwise the response is a
success carrying `https://wa.me/<digits-only-number>?text=<url-encoded body>`
whose body contains the submitted name, email, subject and message, and the
server sends no email. -/
theorem contact_whatsapp (env : ContactEnv) (mailerAvailable sendOk : Bool)
    (tbl : SettingsTable) (n e s m : String)
    (hn : n ≠ "") (he : e ≠ "") (hs : s ≠ "") (hm : m ≠ "")
    (haction : resolveContactAction tbl env = "whatsapp") :
    (orElseStr (rawSetting tbl "adminSchoolWhatsappNumber") env.whatsappNumber = none →
      submitContact env mailerAvailable sendOk tbl n e s m
        = (⟨500, false, none, none, "Server error: WhatsApp number not set."⟩, []))
    ∧ (orElseStr (rawSetting tbl "adminSchoolWhatsappNumber") env.whatsappNumber
        = some "" →
      submitContact env mailerAvailable sendOk tbl n e s m
        = (⟨500, false, none, none, "Server error: WhatsApp number not set."⟩, []))
    ∧ (∀ num, num ≠ "" →
      orElseStr (rawSetting tbl "adminSchoolWhatsappNumber") env.whatsappNumber
          = some num →
      submitContact env mailerAvailable sendOk tbl n e s m
        = (⟨200, true, some "whatsapp",
            some ("https://wa.me/" ++ digitsOnly num ++ "?text="
              ++ encodeURIComponent (whatsappMessageBody n e s m)),
            "Please click " ++ sq ++ "Send" ++ sq ++ " in WhatsApp."⟩, []))
    ∧ (∃ p q, whatsappMessageBody n e s m = p ++ n ++ q)
    ∧ (∃ p q, whatsappMessageBody n e s m = p ++ e ++ q)
    ∧ (∃ p q, whatsappMessageBody n e s m = p ++ s ++ q)
    ∧ (∃ p q, whatsappMessageBody n e s m = p ++ m ++ q) := by
  have hfields : (n = "" || e = "" || s = "" || m = "") = false := by
    simp [hn, he, hs, hm]
  refine ⟨?_, ?_, ?_, ?_, ?_, ?_, ?_⟩
  · intro hnum
    unfold submitContact
    rw [hfields]
    simp only [Bool.false_eq_true, if_false, haction, hnum]
    simp
  · intro hnum
    unfold submitContact
    rw [hfields]
    simp only [Bool.false_eq_true, if_false, haction, hnum]
    simp
  · intro num hnum hlook
    unfold submitContact
    rw [hfields]
    simp only [Bool.false_eq_true, if_false, haction, hlook]
    simp [hnum]
    rfl
  · exact ⟨"New Contact Form Submission:\nName: ",
      "\nEmail: " ++ e ++ "\nSubject: " ++ s ++ "\nMessage:\n" ++ m,
      by simp [whatsappMessageBody, String.append_assoc]⟩
  · exact ⟨"New Contact Form Submission:\nName: " ++ n ++ "\nEmail: ",
      "\nSubject: " ++ s ++ "\nMessage:\n" ++ m,
      by simp [whatsappMessageBody, String.append_assoc]⟩
  · exact ⟨"New Contact Form Submission:\nName: " ++ n ++ "\nEmail: " ++ e
        ++ "\nSubject: ",
      "\nMessage:\n" ++ m,
      by simp [whatsappMessageBody, String.append_assoc]⟩
  · exact ⟨"New Contact Form Submission:\nName: " ++ n ++ "\nEmail: " ++ e
        ++ "\nSubject: " ++ s ++ "\nMessage:\n", "",
      by simp [whatsappMessageBody, String.append_assoc]⟩

theorem contact_whatsapp_witness :
    resolveContactAction [] ⟨none, some "+1 (23) 45", none, none⟩ = "whatsapp"
    ∧ orElseStr (rawSetting [] "adminSchoolWhatsappNumber") (some "+1 (23) 45")
        = some "+1 (23) 45"
    ∧ submitContact ⟨none, some "+1 (23) 45", none, none⟩ true true [] "N" "E" "S" "M"
        = (⟨200, true, some "whatsapp",
            some ("https://wa.me/" ++ digitsOnly "+1 (23) 45" ++ "?text="
              ++ encodeURIComponent (whatsappMessageBody "N" "E" "S" "M")),
            "Please click " ++ sq ++ "Send" ++ sq ++ " in WhatsApp."⟩, [])
    ∧ digitsOnly "+1 (23) 45" = "12345" := by
  refine ⟨rfl, rfl, ?_, rfl⟩
  exact (contact_whatsapp ⟨none, some "+1 (23) 45", none, none⟩ true true []
    "N" "E" "S" "M" (by decide) (by decide) (by decide) (by decide) rfl).2.2.1
    "+1 (23) 45" (by decide) rfl


/-! ## Claim theorems: carousel ordering invariant (C5) -/

instance : IsTotal CarouselRow rowLE :=
  ⟨fun a b => by simp only [rowLE]; omega⟩

instance : IsTrans CarouselRow rowLE :=
  ⟨fun a b c hab hbc => by simp only [rowLE] at hab hbc ⊢; omega⟩

/-- C5: the carousel ordering invariant: an insert appends a row with
`display_order = max(existing) + 1` (1 on an empty table, since the max of an
empty table is 0) and a fresh id, touching no existing row; listing returns a
sorted-by-(display_order, id) permutation of the rows; deletion only filters
rows out, never renumbering the survivors; and from an empty table inserting
A, B, C lists [A, B, C] with orders 1, 2, 3, while deleting the middle row
re-lists [A, C] in unchanged relative order. -/
theorem carousel_ordering :
    (∀ st url l a f, (postCarouselBody (some url) st l a f).1.carousel
        = st.carousel ++ [newCarouselRow st url l a f]
      ∧ (newCarouselRow st url l a f).display_order = maxOrder st.carousel + 1
      ∧ (newCarouselRow st url l a f).id = st.nextId)
    ∧ maxOrder [] = 0
    ∧ (∀ rows, List.Sorted rowLE (listCarousel rows)
        ∧ (listCarousel rows).Perm rows)
    ∧ (∀ orc st idStr, (deleteCarousel orc st idStr).1.carousel = st.carousel
        ∨ ∃ id, parseIntJS idStr = some id
          ∧ (deleteCarousel orc st idStr).1.carousel
              = st.carousel.filter (fun r => ¬ r.id = id))
    ∧ (∀ (settings : SettingsTable) (blobs : List String) (sess : Option SessionData)
        (nid : Int) (u1 l1 a1 f1 u2 l2 a2 f2 u3 l3 a3 f3 : String)
        (orc : BlobOracle) (idStr : String),
      (postCarouselBody (some u3)
          (postCarouselBody (some u2)
            (postCarouselBody (some u1) ⟨settings, [], nid, blobs, sess⟩ l1 a1 f1).1
            l2 a2 f2).1 l3 a3 f3).1.carousel
        = [newCarouselRow ⟨settings, [], nid, blobs, sess⟩ u1 l1 a1 f1,
           newCarouselRow (postCarouselBody (some u1) ⟨settings, [], nid, blobs, sess⟩
              l1 a1 f1).1 u2 l2 a2 f2,
           newCarouselRow (postCarouselBody (some u2)
              (postCarouselBody (some u1) ⟨settings, [], nid, blobs, sess⟩ l1 a1 f1).1
              l2 a2 f2).1 u3 l3 a3 f3]
      ∧ (newCarouselRow ⟨settings, [], nid, blobs, sess⟩ u1 l1 a1 f1).display_order = 1
      ∧ (newCarouselRow (postCarouselBody (some u1) ⟨settings, [], nid, blobs, sess⟩
            l1 a1 f1).1 u2 l2 a2 f2).display_order = 2
      ∧ (newCarouselRow (postCarouselBody (some u2)
            (postCarouselBody (some u1) ⟨settings, [], nid, blobs, sess⟩ l1 a1 f1).1
            l2 a2 f2).1 u3 l3 a3 f3).display_order = 3
      ∧ listCarousel (postCarouselBody (some u3)
          (postCarouselBody (some u2)
            (postCarouselBody (some u1) ⟨settings, [], nid, blobs, sess⟩ l1 a1 f1).1
            l2 a2 f2).1 l3 a3 f3).1.carousel
        = (postCarouselBody (some u3)
          (postCarouselBody (some u2)
            (postCarouselBody (some u1) ⟨settings, [], nid, blobs, sess⟩ l1 a1 f1).1
            l2 a2 f2).1 l3 a3 f3).1.carousel
      ∧ (parseIntJS idStr = some (nid + 1) →
        listCarousel ((deleteCarousel orc (postCarouselBody (some u3)
            (postCarouselBody (some u2)
              (postCarouselBody (some u1) ⟨settings, [], nid, blobs, sess⟩ l1 a1 f1).1
              l2 a2 f2).1 l3 a3 f3).1 idStr).1.carousel)
          = [newCarouselRow ⟨settings, [], nid, blobs, sess⟩ u1 l1 a1 f1,
             newCarouselRow (postCarouselBody (some u2)
                (postCarouselBody (some u1) ⟨settings, [], nid, blobs, sess⟩ l1 a1 f1).1
                l2 a2 f2).1 u3 l3 a3 f3])) := by
  refine ⟨fun st url l a f => ⟨rfl, rfl, rfl⟩, rfl,
    fun rows => ⟨List.sorted_insertionSort rowLE rows, List.perm_insertionSort rowLE rows⟩,
    ?_, ?_⟩
  · intro orc st idStr
    cases hparse : parseIntJS idStr with
    | none =>
      left
      unfold deleteCarousel
      simp only [hparse]
    | some id =>
      cases hrow : rowLookup st.carousel id with
      | none =>
        left
        unfold deleteCarousel
        simp only [hparse, hrow]
      | some row =>
        exact Or.inr ⟨id, rfl,
          (deleteCarousel_found_commits orc st idStr id row hparse hrow).1⟩
  · intro settings blobs sess nid u1 l1 a1 f1 u2 l2 a2 f2 u3 l3 a3 f3 orc idStr
    have ho1 : (newCarouselRow ⟨settings, [], nid, blobs, sess⟩ u1 l1 a1 f1).display_order
        = 1 := by
      show maxOrder [] + 1 = 1
      decide
    have ho2 : (newCarouselRow (postCarouselBody (some u1)
        ⟨settings, [], nid, blobs, sess⟩ l1 a1 f1).1 u2 l2 a2 f2).display_order = 2 := by
      show maxOrder [newCarouselRow ⟨settings, [], nid, blobs, sess⟩ u1 l1 a1 f1] + 1 = 2
      show (newCarouselRow ⟨settings, [], nid, blobs, sess⟩ u1 l1 a1 f1).display_order + 1
        = 2
      rw [ho1]
      decide
    have ho3 : (newCarouselRow (postCarouselBody (some u2)
        (postCarouselBody (some u1) ⟨settings, [], nid, blobs, sess⟩ l1 a1 f1).1
        l2 a2 f2).1 u3 l3 a3 f3).display_order = 3 := by
      show max
        (newCarouselRow ⟨settings, [], nid, blobs, sess⟩ u1 l1 a1 f1).display_order
        (newCarouselRow (postCarouselBody (some u1) ⟨settings, [], nid, blobs, sess⟩
          l1 a1 f1).1 u2 l2 a2 f2).display_order + 1 = 3
      rw [ho1, ho2]
      decide
    refine ⟨rfl, ho1, ho2, ho3, ?_, ?_⟩
    · apply List.Sorted.insertionSort_eq
      refine List.sorted_cons.mpr ⟨?_, List.sorted_cons.mpr ⟨?_, ?_⟩⟩
      · intro b hb
        rcases List.mem_cons.mp hb with rfl | hb
        · exact Or.inl (by rw [ho1, ho2]; decide)
        · rcases List.mem_cons.mp hb with rfl | hb
          · exact Or.inl (by rw [ho1, ho3]; decide)
          · simp at hb
      · intro b hb
        rcases List.mem_cons.mp hb with rfl | hb
        · exact Or.inl (by rw [ho2, ho3]; decide)
        · simp at hb
      · exact List.sorted_singleton _
    · intro hparse
      have hne1 : ¬ (nid = nid + 1) := by omega
      have hne3 : ¬ (nid + 2 = nid + 1) := by omega
      have hrowB : rowLookup (postCarouselBody (some u3)
          (postCarouselBody (some u2)
            (postCarouselBody (some u1) ⟨settings, [], nid, blobs, sess⟩ l1 a1 f1).1
            l2 a2 f2).1 l3 a3 f3).1.carousel (nid + 1)
          = some (newCarouselRow (postCarouselBody (some u1)
            ⟨settings, [], nid, blobs, sess⟩ l1 a1 f1).1 u2 l2 a2 f2) := by
        show List.find? _ [_, _, _] = _
        rw [List.find?]
        rw [show (decide ((newCarouselRow ⟨settings, [], nid, blobs, sess⟩
          u1 l1 a1 f1).id = nid + 1)) = false by simp [newCarouselRow, hne1]]
        rw [List.find?]
        rw [show (decide ((newCarouselRow (postCarouselBody (some u1)
            ⟨settings, [], nid, blobs, sess⟩ l1 a1 f1).1 u2 l2 a2 f2).id = nid + 1))
          = true by simp [newCarouselRow, postCarouselBody]]
      have hdel := (deleteCarousel_found_commits orc _ idStr (nid + 1) _ hparse hrowB).1
      rw [hdel]
      have hfilter : (postCarouselBody (some u3)
          (postCarouselBody (some u2)
            (postCarouselBody (some u1) ⟨settings, [], nid, blobs, sess⟩ l1 a1 f1).1
            l2 a2 f2).1 l3 a3 f3).1.carousel.filter (fun r => ¬ r.id = nid + 1)
          = [newCarouselRow ⟨settings, [], nid, blobs, sess⟩ u1 l1 a1 f1,
             newCarouselRow (postCarouselBody (some u2)
              (postCarouselBody (some u1) ⟨settings, [], nid, blobs, sess⟩ l1 a1 f1).1
              l2 a2 f2).1 u3 l3 a3 f3] := by
        show List.filter _ [_, _, _] = _
        simp only [List.filter]
        rw [show (decide ¬((newCarouselRow ⟨settings, [], nid, blobs, sess⟩
            u1 l1 a1 f1).id = nid + 1)) = true by simp [newCarouselRow, hne1]]
        rw [show (decide ¬((newCarouselRow (postCarouselBody (some u1)
            ⟨settings, [], nid, blobs, sess⟩ l1 a1 f1).1 u2 l2 a2 f2).id = nid + 1))
          = false by simp [newCarouselRow, postCarouselBody]]
        rw [show (decide ¬((newCarouselRow (postCarouselBody (some u2)
            (postCarouselBody (some u1) ⟨settings, [], nid, blobs, sess⟩ l1 a1 f1).1
            l2 a2 f2).1 u3 l3 a3 f3).id = nid + 1)) = true by
          simp [newCarouselRow, postCarouselBody, hne3]]
      rw [hfilter]
      apply List.Sorted.insertionSort_eq
      refine List.sorted_cons.mpr ⟨?_, List.sorted_singleton _⟩
      intro b hb
      rcases List.mem_cons.mp hb with rfl | hb
      · exact Or.inl (by rw [ho1, ho3]; decide)
      · simp at hb


theorem carousel_ordering_witness :
    parseIntJS "6" = some ((5 : Int) + 1)
    ∧ listCarousel ((deleteCarousel ⟨fun _ => .ok, fun _ => .ok⟩
        (postCarouselBody (some "http://c")
          (postCarouselBody (some "http://b")
            (postCarouselBody (some "http://a") ⟨[], [], 5, [], none⟩ "" "" "a.png").1
            "" "" "b.png").1 "" "" "c.png").1 "6").1.carousel)
      = [newCarouselRow ⟨[], [], 5, [], none⟩ "http://a" "" "" "a.png",
         newCarouselRow (postCarouselBody (some "http://b")
            (postCarouselBody (some "http://a") ⟨[], [], 5, [], none⟩ "" "" "a.png").1
            "" "" "b.png").1 "http://c" "" "" "c.png"] := by
  refine ⟨by decide, ?_⟩
  exact (carousel_ordering.2.2.2.2 [] [] none 5 "http://a" "" "" "a.png"
    "http://b" "" "" "b.png" "http://c" "" "" "c.png" ⟨fun _ => .ok, fun _ => .ok⟩
    "6").2.2.2.2.2 (by decide)

end SchoolSite
